import Mathlib

/-!
# Verification of the supershow play-by-play overlay synchronization core

A shallow embedding, in Lean, of the retained-state synchronization core of
the repository: the topic schema (`src/shared/mqtt_client.py`, class
`Topics`), the MQTT client wrapper (`MQTTClient`), the controller-side
publisher (`src/controller/publisher.py`), the match controller
(`src/controller/controller.py`), the production-side subscriber/router
(`src/production/subscriber.py`) and the replica state manager
(`src/production/state_manager.py`).

Conventions of the embedding:
* Python strings are Lean `String`; all string manipulation is performed on
  `String.data` (a `List Char`) with structurally recursive functions so
  that every definition evaluates inside the kernel.
* Python `int` is Lean `Int`; JSON payload values are the inductive `Val`.
* A Python exception escaping a function is modelled with `Except PyErr` or
  with an `Option PyErr` component of the result, as noted per function.
* Effects on the message bus are modelled as explicit lists of `Pub`
  records (one per `mqtt.publish` call); UI notifications of the replica
  are modelled as the list of `update_type` strings passed to `_notify_ui`.
-/

/-- Python exceptions that the modelled code can raise.  The payload is the
identifying text (attribute name, message). -/
inductive PyErr where
  | attributeError (name : String)
  | valueError (msg : String)
  | handlerError (msg : String)
  deriving DecidableEq, Repr

-- ==================== Python string primitives ====================

/-- Worker for Python `str.split(sep)` with a one-character separator:
walks the character list, cutting at every separator occurrence (empty
pieces are kept, as in Python). -/
def pySplitAux (sep : Char) : List Char → List Char → List (List Char)
  | [], acc => [acc.reverse]
  | c :: rest, acc =>
    if c = sep then acc.reverse :: pySplitAux sep rest []
    else pySplitAux sep rest (c :: acc)

/-- Python `s.split(sep)` for a one-character separator, on `List Char`. -/
def pySplitChars (sep : Char) (s : List Char) : List (List Char) :=
  pySplitAux sep s []

/-- Python `s.split(sep)` for a one-character separator. -/
def pySplit (sep : Char) (s : String) : List String :=
  (pySplitChars sep s.data).map String.mk

/-- Python `sep.join(parts)`. -/
def pyJoin (sep : String) (parts : List String) : String :=
  String.mk (List.intercalate sep.data (parts.map String.data))

/-- Python `s.startswith(prefix)`. -/
def pyStartsWith (s pre : String) : Bool :=
  pre.data.isPrefixOf s.data

/-- Worker for Python `str.replace(pat, repl)` (and hence for
`str.format` with a single named placeholder): scans the input, replacing
every occurrence of `pat`.  The fuel argument is initialized with the
length of the input; every step consumes at least one input character, so
the fuel never runs out on the initial call. -/
def pyReplaceAux (pat repl : List Char) : Nat → List Char → List Char
  | 0, s => s
  | fuel + 1, s =>
    match s with
    | [] => []
    | c :: rest =>
      if pat.isPrefixOf (c :: rest) then
        repl ++ pyReplaceAux pat repl fuel (List.drop pat.length (c :: rest))
      else
        c :: pyReplaceAux pat repl fuel rest

/-- Python `s.replace(pat, repl)` for a non-empty pattern. -/
def pyReplace (s pat repl : String) : String :=
  String.mk (pyReplaceAux pat.data repl.data s.data.length s.data)

/-- One decimal digit as a character (`digitChar n = '0' + n` for `n < 10`). -/
def pyDigitChar (n : Nat) : Char := Char.ofNat (48 + n)

/-- Worker producing the base-10 digits of a natural number, most
significant first.  Fuel-driven so that it is structurally recursive; fuel
`n + 1` always suffices. -/
def natCharsAux : Nat → Nat → List Char
  | 0, _ => []
  | fuel + 1, n =>
    if n < 10 then [pyDigitChar n]
    else natCharsAux fuel (n / 10) ++ [pyDigitChar (n % 10)]

/-- The base-10 digit string of a natural number (Python `str(n)` for
`n ≥ 0`). -/
def natChars (n : Nat) : List Char := natCharsAux (n + 1) n

/-- Python `str(n)` for an `int`: a minus sign for negatives, then the
decimal digits. -/
def intChars (n : Int) : List Char :=
  if n < 0 then '-' :: natChars n.natAbs else natChars n.toNat

/-- Whether a character is one of the whitespace characters Python strips
around numeric literals and JSON tokens. -/
def pyIsSpace (c : Char) : Bool :=
  c = ' ' || c = '\t' || c = '\n' || c = '\r'

/-- `c.isDigit` for ASCII decimal digits (`'0' ≤ c ≤ '9'`, stated on code
points). -/
def pyIsDigit (c : Char) : Bool := 48 ≤ c.toNat && c.toNat ≤ 57

/-- Fold a digit list into the natural number it denotes (most significant
digit first). -/
def digitsToNat : List Char → Nat → Nat
  | [], acc => acc
  | c :: rest, acc => digitsToNat rest (acc * 10 + (c.toNat - 48))

/-- Python `int(s)`: strip surrounding whitespace, accept an optional sign
followed by one or more decimal digits, otherwise raise `ValueError`.
(The underscore digit-grouping extension of Python is not modelled; none of
the inputs in this system contain it.) -/
def pyIntCore (s : String) : List Char :=
  ((s.data.dropWhile pyIsSpace).reverse.dropWhile pyIsSpace).reverse

/-- Sign handling of `int()`: an optional leading `-` or `+`. -/
def pyIntSigned (core : List Char) : Bool × List Char :=
  match core with
  | [] => (false, [])
  | c :: rest =>
    if c = '-' then (true, rest)
    else if c = '+' then (false, rest)
    else (false, c :: rest)

def pyInt (s : String) : Except PyErr Int :=
  if (pyIntSigned (pyIntCore s)).2 ≠ []
      ∧ (pyIntSigned (pyIntCore s)).2.all pyIsDigit then
    .ok (if (pyIntSigned (pyIntCore s)).1 then
        -(digitsToNat (pyIntSigned (pyIntCore s)).2 0 : Int)
      else (digitsToNat (pyIntSigned (pyIntCore s)).2 0 : Int))
  else
    .error (.valueError s)

-- ==================== JSON values (the `json` module) ====================

/-- A JSON-serializable Python value, as constructed and consumed by this
program: `None`, `bool`, `int`, `str`, `list`, `dict` (string keys, in
insertion order).  Floats never occur in the program's payloads and are
outside the embedding. -/
inductive Val where
  | vnull
  | vbool (b : Bool)
  | vint (n : Int)
  | vstr (s : String)
  | vlist (xs : List Val)
  | vdict (kvs : List (String × Val))

namespace Val

/-- Whether the value is a Python `str` (`isinstance(payload, str)`). -/
def isStr : Val → Bool
  | vstr _ => true
  | _ => false

/-- Python `v == ""` for a decoded payload value: true exactly for the
empty string. -/
def isEmptyStr : Val → Bool
  | vstr s => s = ""
  | _ => false

/-- Python `d.get(key, default)` on a dict value; on a non-dict it is
never called by the modelled code paths. -/
def dictGet (v : Val) (key : String) (dflt : Val) : Val :=
  match v with
  | vdict kvs =>
    match kvs.find? (fun kv => kv.1 = key) with
    | some kv => kv.2
    | none => dflt
  | _ => dflt

end Val

-- ==================== Topic constants (`class Topics`) ====================

namespace Topics

/-- `supershow/match/init`. -/
def MATCH_INIT : String := "supershow/match/init"
/-- `supershow/match/reset`. -/
def MATCH_RESET : String := "supershow/match/reset"
/-- `supershow/match/title`. -/
def MATCH_TITLE : String := "supershow/match/title"
/-- `supershow/match/stipulations`. -/
def MATCH_STIPULATIONS : String := "supershow/match/stipulations"
/-- `supershow/match/crowd_meter`. -/
def MATCH_CROWD_METER : String := "supershow/match/crowd_meter"

/-- Player-topic template for the competitor field. -/
def PLAYER_COMPETITOR : String := "supershow/player/\x7bplayer_id\x7d/competitor"
/-- Player-topic template for the hand count field. -/
def PLAYER_HAND_COUNT : String := "supershow/player/\x7bplayer_id\x7d/hand_count"
/-- Player-topic template for the deck count field. -/
def PLAYER_DECK_COUNT : String := "supershow/player/\x7bplayer_id\x7d/deck_count"
/-- Player-topic template for the discard pile field. -/
def PLAYER_DISCARD : String := "supershow/player/\x7bplayer_id\x7d/discard"
/-- Player-topic template for the in-play field. -/
def PLAYER_IN_PLAY : String := "supershow/player/\x7bplayer_id\x7d/in_play"
/-- Player-topic template for the turn roll field. -/
def PLAYER_TURN_ROLL : String := "supershow/player/\x7bplayer_id\x7d/turn_roll"
/-- Player-topic template for the turns-won field. -/
def PLAYER_TURNS_WON : String := "supershow/player/\x7bplayer_id\x7d/turns_won"
/-- Player-topic template for the turns-passed field. -/
def PLAYER_TURNS_PASSED : String := "supershow/player/\x7bplayer_id\x7d/turns_passed"

/-- `Topics.player_topic(base_topic, player_id)`:
`base_topic.format(player_id=player_id)`, i.e. the `\x7bplayer_id\x7d`
placeholder replaced by the decimal rendering of the player id. -/
def player_topic (base_topic : String) (player_id : Int) : String :=
  pyReplace base_topic "\x7bplayer_id\x7d" (String.mk (intChars player_id))

end Topics

-- ==================== MQTT connection model (`MQTTClient`) ====================

/-- The reconnect-backoff configuration of `MQTTClient.__init__`
(`reconnect_delay_min`, default 1; `reconnect_delay_max`, default 60). -/
structure BackoffCfg where
  reconnect_delay_min : Int := 1
  reconnect_delay_max : Int := 60
  deriving DecidableEq, Repr

/-- The connection-related mutable state of an `MQTTClient` instance:
`self.connected` and `self.reconnect_delay` (initialized to
`reconnect_delay_min`). -/
structure ConnState where
  connected : Bool
  reconnect_delay : Int
  deriving DecidableEq, Repr

namespace MQTTClient

/-- The connection state right after `__init__`. -/
def initState (cfg : BackoffCfg) : ConnState :=
  { connected := false, reconnect_delay := cfg.reconnect_delay_min }

/-- `MQTTClient._on_connect`: on `rc == 0` set `connected = True` and reset
`reconnect_delay` to the configured minimum; otherwise set
`connected = False` (the delay is left unchanged). -/
def on_connect (cfg : BackoffCfg) (s : ConnState) (rc : Int) : ConnState :=
  if rc = 0 then
    { connected := true, reconnect_delay := cfg.reconnect_delay_min }
  else
    { s with connected := false }

/-- `MQTTClient._on_disconnect`: always clears `connected`.  On an unclean
disconnect (`rc != 0`) it sleeps for the current `reconnect_delay`
(returned as the second component) and then doubles the delay, capped at
`reconnect_delay_max`; on a clean disconnect (`rc == 0`) it does not sleep
and leaves the delay unchanged. -/
def on_disconnect (cfg : BackoffCfg) (s : ConnState) (rc : Int) :
    ConnState × Option Int :=
  if rc = 0 then
    ({ s with connected := false }, none)
  else
    ({ connected := false,
       reconnect_delay := min (s.reconnect_delay * 2) cfg.reconnect_delay_max },
     some s.reconnect_delay)

/-- Run a sequence of `_on_disconnect` callbacks (one per element of `rcs`)
from state `s`, collecting the sleep performed before each reconnect
attempt. -/
def runDisconnects (cfg : BackoffCfg) (s : ConnState) :
    List Int → ConnState × List Int
  | [] => (s, [])
  | rc :: rest =>
    match on_disconnect cfg s rc with
    | (s', slept) =>
      match runDisconnects cfg s' rest with
      | (sT, sleeps) => (sT, slept.toList ++ sleeps)

end MQTTClient

-- backoff lemmas

/-- One unclean disconnect doubles the delay with a cap. -/
theorem on_disconnect_delay (cfg : BackoffCfg) (s : ConnState) (rc : Int)
    (h : rc ≠ 0) :
    (MQTTClient.on_disconnect cfg s rc).1.reconnect_delay
      = min (s.reconnect_delay * 2) cfg.reconnect_delay_max ∧
    (MQTTClient.on_disconnect cfg s rc).2 = some s.reconnect_delay := by
  simp [MQTTClient.on_disconnect, h]

/-- The capped-doubling sequence in closed form: starting from a delay of
`min (base * 2 ^ k) mx`, the sleep before the `i`-th further failure (0
based) is `min (base * 2 ^ (k + i)) mx`, provided `0 ≤ mx`. -/
theorem runDisconnects_sleeps (cfg : BackoffCfg)
    (hmax : 0 ≤ cfg.reconnect_delay_max) :
    ∀ (rcs : List Int) (b : Bool) (k : Nat), (∀ rc ∈ rcs, rc ≠ 0) →
    (MQTTClient.runDisconnects cfg
        { connected := b,
          reconnect_delay :=
            min (cfg.reconnect_delay_min * 2 ^ k) cfg.reconnect_delay_max }
        rcs).2
      = (List.range rcs.length).map
          (fun i => min (cfg.reconnect_delay_min * 2 ^ (k + i))
            cfg.reconnect_delay_max) := by
  intro rcs
  induction rcs with
  | nil => intro b k _; simp [MQTTClient.runDisconnects]
  | cons rc rest ih =>
    intro b k hrc
    have hrc0 : rc ≠ 0 := hrc rc (by simp)
    have hrest : ∀ r ∈ rest, r ≠ 0 := fun r hr => hrc r (by simp [hr])
    have hstep :
        min (min (cfg.reconnect_delay_min * 2 ^ k) cfg.reconnect_delay_max * 2)
            cfg.reconnect_delay_max
          = min (cfg.reconnect_delay_min * 2 ^ (k + 1))
              cfg.reconnect_delay_max := by
      have h2 : cfg.reconnect_delay_min * 2 ^ (k + 1)
          = cfg.reconnect_delay_min * 2 ^ k * 2 := by ring
      rw [h2]
      omega
    simp only [MQTTClient.runDisconnects, MQTTClient.on_disconnect,
      if_neg hrc0]
    rw [hstep, ih false (k + 1) hrest]
    simp only [List.length_cons, List.range_succ_eq_map, List.map_cons,
      List.map_map, Option.toList_some, List.singleton_append]
    refine congrArg₂ List.cons (by norm_num) ?_
    refine List.map_congr_left fun i _ => ?_
    simp only [Function.comp_apply]
    have he : k + 1 + i = k + (i + 1) := by omega
    rw [he]

-- ==================== json.dumps ====================

/-- Lowercase hexadecimal digit character for `n < 16`. -/
def hexChar (n : Nat) : Char :=
  if n < 10 then pyDigitChar n else Char.ofNat (87 + n)

/-- The escape `json.dumps` applies to one character inside a string
literal: `"` and `\` get a backslash, the short escapes `\b \t \n \f \r`
are used where they exist, any other control character becomes `\u00xx`,
and every other character is emitted as itself.  (The default
`ensure_ascii` additionally hex-escapes characters above `0x7f` on the
wire; that encoding-level detail is inverted by the same decoder and is
not modelled.) -/
def escapeChar (c : Char) : List Char :=
  if c = '"' then ['\\', '"']
  else if c = '\\' then ['\\', '\\']
  else if c = '\n' then ['\\', 'n']
  else if c = '\t' then ['\\', 't']
  else if c = '\r' then ['\\', 'r']
  else if c = Char.ofNat 8 then ['\\', 'b']
  else if c = Char.ofNat 12 then ['\\', 'f']
  else if c.toNat < 32 then
    ['\\', 'u', '0', '0', hexChar (c.toNat / 16), hexChar (c.toNat % 16)]
  else [c]

/-- A JSON string literal: quote, escaped characters, quote. -/
def escapeString (s : String) : List Char :=
  '"' :: (s.data.map escapeChar).flatten ++ ['"']

/-- Consume an expected literal character sequence, returning the input
after it, or `none` on a mismatch. -/
def expectChars : List Char → List Char → Option (List Char)
  | [], cs => some cs
  | _ :: _, [] => none
  | p :: ps, c :: cs => if c = p then expectChars ps cs else none

/-- Python `sep.join(pieces)` on character lists (as the serializer uses
it between array elements and object members). -/
def joinSep (sep : List Char) : List (List Char) → List Char
  | [] => []
  | [x] => x
  | x :: y :: rest => x ++ sep ++ joinSep sep (y :: rest)

/-- `json.dumps` with the default separators `", "` and `": "`:
renders a `Val` to its JSON text. -/
def dumps : Val → List Char
  | .vnull => "null".data
  | .vbool true => "true".data
  | .vbool false => "false".data
  | .vint n => intChars n
  | .vstr s => escapeString s
  | .vlist xs =>
    '[' :: joinSep [',', ' '] (xs.attach.map (fun x => dumps x.1)) ++ [']']
  | .vdict kvs =>
    '\x7b' :: joinSep [',', ' ']
        (kvs.attach.map
          (fun kv => escapeString kv.1.1 ++ ':' :: ' ' :: dumps kv.1.2))
      ++ ['\x7d']
termination_by v => sizeOf v
decreasing_by
  · have h1 := List.sizeOf_lt_of_mem x.2
    simp only [Val.vlist.sizeOf_spec]
    omega
  · have h1 := List.sizeOf_lt_of_mem kv.2
    have h2 : sizeOf kv.1 = 1 + sizeOf kv.1.1 + sizeOf kv.1.2 := by
      rcases kv.1 with ⟨a, b⟩; simp
    simp only [Val.vdict.sizeOf_spec]
    omega

-- ==================== json.loads ====================

/-- Skip the whitespace characters the JSON scanner skips. -/
def skipWs : List Char → List Char
  | [] => []
  | c :: rest => if pyIsSpace c then skipWs rest else c :: rest

/-- Value of one hexadecimal digit character. -/
def parseHex (c : Char) : Option Nat :=
  if 48 ≤ c.toNat ∧ c.toNat ≤ 57 then some (c.toNat - 48)
  else if 97 ≤ c.toNat ∧ c.toNat ≤ 102 then some (c.toNat - 87)
  else if 65 ≤ c.toNat ∧ c.toNat ≤ 70 then some (c.toNat - 55)
  else none

/-- Decode of one short escape character after a backslash. -/
def unescapeChar (e : Char) : Option Char :=
  if e = '"' then some '"'
  else if e = '\\' then some '\\'
  else if e = '/' then some '/'
  else if e = 'n' then some '\n'
  else if e = 't' then some '\t'
  else if e = 'r' then some '\r'
  else if e = 'b' then some (Char.ofNat 8)
  else if e = 'f' then some (Char.ofNat 12)
  else none

/-- JSON string-literal body parser: the input starts right after the
opening quote; returns the decoded characters and the input after the
closing quote.  `\uXXXX` escapes denoting surrogate halves are rejected
(they have no `Char` counterpart; the encoder never produces them). -/
def parseStringBody : List Char → Option (List Char × List Char)
  | [] => none
  | c :: rest =>
    if c = '"' then some ([], rest)
    else if c = '\\' then
      match rest with
      | [] => none
      | e :: rest2 =>
        if e = 'u' then
          match rest2 with
          | h1 :: h2 :: h3 :: h4 :: rest3 =>
            match parseHex h1, parseHex h2, parseHex h3, parseHex h4 with
            | some a, some b, some c3, some d =>
              let n := ((a * 16 + b) * 16 + c3) * 16 + d
              if Nat.isValidChar n then
                (parseStringBody rest3).map
                  (fun p => (Char.ofNat n :: p.1, p.2))
              else none
            | _, _, _, _ => none
          | _ => none
        else
          match unescapeChar e with
          | some u =>
            (parseStringBody rest2).map (fun p => (u :: p.1, p.2))
          | none => none
    else (parseStringBody rest).map (fun p => (c :: p.1, p.2))

/-- Greedily consume decimal digits, extending the accumulator. -/
def parseDigits : List Char → Nat → Nat × List Char
  | [], acc => (acc, [])
  | c :: rest, acc =>
    if pyIsDigit c then parseDigits rest (acc * 10 + (c.toNat - 48))
    else (acc, c :: rest)

/-- After an integer literal, a `.`, `e` or `E` would continue a (float)
number; floats are outside the embedding, so such a continuation makes the
parse fail instead of mis-reading a prefix. -/
def numberCont : List Char → Bool
  | [] => false
  | c :: _ => c = '.' || c = 'e' || c = 'E'

/-- Element list parser for arrays, parameterized by the value parser
`pv`: parses `v (, v)* ]` where each `v` may carry leading whitespace
(consumed by `pv`); the fuel bounds the number of elements. -/
def parseElems (pv : List Char → Option (Val × List Char)) :
    Nat → List Char → Option (List Val × List Char)
  | 0, _ => none
  | fuel + 1, cs =>
    (pv cs).bind (fun p =>
      match skipWs p.2 with
      | [] => none
      | d :: cs2 =>
        if d = ',' then
          (parseElems pv fuel cs2).map (fun q => (p.1 :: q.1, q.2))
        else if d = ']' then some ([p.1], cs2)
        else none)

/-- Member list parser for objects, parameterized by the value parser
`pv`: parses `"k": v (, "k": v)* \x7d`. -/
def parseMembers (pv : List Char → Option (Val × List Char)) :
    Nat → List Char → Option (List (String × Val) × List Char)
  | 0, _ => none
  | fuel + 1, cs =>
    match skipWs cs with
    | [] => none
    | q :: cs1 =>
      if q = '"' then
        (parseStringBody cs1).bind (fun kp =>
          match skipWs kp.2 with
          | [] => none
          | colon :: cs3 =>
            if colon = ':' then
              (pv cs3).bind (fun vp =>
                match skipWs vp.2 with
                | [] => none
                | d :: cs5 =>
                  if d = ',' then
                    (parseMembers pv fuel cs5).map
                      (fun p => ((String.mk kp.1, vp.1) :: p.1, p.2))
                  else if d = '\x7d' then
                    some ([(String.mk kp.1, vp.1)], cs5)
                  else none)
            else none)
      else none

/-- The JSON value parser: skips leading whitespace, dispatches on the
first character, returns the value and the unconsumed input.  The fuel
bounds the total number of values parsed; `loads` supplies one more than
the input length, which always suffices. -/
def parseVal : Nat → List Char → Option (Val × List Char)
  | 0, _ => none
  | fuel + 1, cs =>
    match skipWs cs with
    | [] => none
    | c :: rest =>
      if c = 'n' then
        (expectChars ['u', 'l', 'l'] rest).map (fun r => (.vnull, r))
      else if c = 't' then
        (expectChars ['r', 'u', 'e'] rest).map (fun r => (.vbool true, r))
      else if c = 'f' then
        (expectChars ['a', 'l', 's', 'e'] rest).map (fun r => (.vbool false, r))
      else if c = '"' then
        (parseStringBody rest).map (fun p => (.vstr (String.mk p.1), p.2))
      else if c = '[' then
        match skipWs rest with
        | [] => none
        | d :: rest2 =>
          if d = ']' then some (.vlist [], rest2)
          else (parseElems (parseVal fuel) fuel rest).map
            (fun p => (.vlist p.1, p.2))
      else if c = '\x7b' then
        match skipWs rest with
        | [] => none
        | d :: rest2 =>
          if d = '\x7d' then some (.vdict [], rest2)
          else (parseMembers (parseVal fuel) fuel rest).map
            (fun p => (.vdict p.1, p.2))
      else if c = '-' then
        match rest with
        | [] => none
        | d :: _ =>
          if pyIsDigit d then
            match parseDigits rest 0 with
            | (n, rest2) =>
              if numberCont rest2 then none
              else some (.vint (-(n : Int)), rest2)
          else none
      else if pyIsDigit c then
        match parseDigits (c :: rest) 0 with
        | (n, rest2) =>
          if numberCont rest2 then none else some (.vint ((n : Int)), rest2)
      else none

/-- `json.loads`: parse one value surrounded by optional whitespace;
anything else raises `JSONDecodeError`, modelled as `none`.  (The Python
extensions `NaN`/`Infinity` and float literals are outside the embedding
and also yield `none`.) -/
def loads (s : String) : Option Val :=
  match parseVal (s.data.length + 1) s.data with
  | some (v, rest) => if skipWs rest = [] then some v else none
  | none => none

-- ==================== round-trip lemmas: characters and digits ====================

/-- Characters with distinct code points are distinct. -/
theorem char_ne_of_toNat {c d : Char} (h : c.toNat ≠ d.toNat) : c ≠ d :=
  fun he => h (congrArg Char.toNat he)

/-- `Char.ofNat` below the surrogate range decodes to the given code point. -/
theorem toNat_ofNat_small {n : Nat} (h : n < 55296) : (Char.ofNat n).toNat = n := by
  have hv : Nat.isValidChar n := Or.inl h
  simp [Char.ofNat, hv, Char.ofNatAux, Char.toNat, UInt32.toNat, BitVec.toNat_ofNatLt]

theorem pyDigitChar_toNat {d : Nat} (h : d < 10) : (pyDigitChar d).toNat = 48 + d := by
  exact toNat_ofNat_small (by omega)

theorem pyIsDigit_digitChar {d : Nat} (h : d < 10) : pyIsDigit (pyDigitChar d) = true := by
  simp [pyIsDigit, pyDigitChar_toNat h]
  omega

/-- Membership in a list of naturals bounds below the sum. -/
theorem elem_le_sum {l : List Nat} {a : Nat} (h : a ∈ l) : a ≤ l.sum := by
  induction l with
  | nil => simp at h
  | cons b l ih =>
    rcases List.mem_cons.mp h with h | h
    · subst h; simp
    · have := ih h; simp; omega

theorem natCharsAux_irrel (n : Nat) : ∀ f1 f2, n < f1 → n < f2 →
    natCharsAux f1 n = natCharsAux f2 n := by
  induction n using Nat.strong_induction_on with
  | _ n ih =>
    intro f1 f2 h1 h2
    match f1, f2 with
    | f1 + 1, f2 + 1 =>
      by_cases h : n < 10
      · simp [natCharsAux, h]
      · simp only [natCharsAux, if_neg h]
        rw [ih (n / 10) (by omega) f1 f2 (by omega) (by omega)]

theorem natChars_small {n : Nat} (h : n < 10) : natChars n = [pyDigitChar n] := by
  simp [natChars, natCharsAux, h]

theorem natChars_unfold {n : Nat} (h : ¬ n < 10) :
    natChars n = natChars (n / 10) ++ [pyDigitChar (n % 10)] := by
  have h1 : natChars n = natCharsAux (n / 10 + n + 1) n :=
    natCharsAux_irrel n (n + 1) (n / 10 + n + 1) (by omega) (by omega)
  rw [h1]
  simp only [natCharsAux, if_neg h]
  unfold natChars
  congr 1
  exact natCharsAux_irrel (n / 10) (n / 10 + n) (n / 10 + 1) (by omega) (by omega)

theorem natChars_digits (n : Nat) :
    natChars n ≠ [] ∧ ∀ c ∈ natChars n, pyIsDigit c = true := by
  induction n using Nat.strong_induction_on with
  | _ n ih =>
    by_cases h : n < 10
    · rw [natChars_small h]
      simp [pyIsDigit_digitChar h]
    · rw [natChars_unfold h]
      have hrec := ih (n / 10) (by omega)
      constructor
      · simp [hrec.1]
      · intro c hc
        rcases List.mem_append.mp hc with hc | hc
        · exact hrec.2 c hc
        · have hc' : c = pyDigitChar (n % 10) := by simpa using hc
          rw [hc']
          exact pyIsDigit_digitChar (by omega)

/-- Whether the input begins with a decimal digit. -/
def digitStart : List Char → Bool
  | [] => false
  | c :: _ => pyIsDigit c

theorem parseDigits_stop {rest : List Char} (acc : Nat)
    (h : digitStart rest = false) : parseDigits rest acc = (acc, rest) := by
  cases rest with
  | nil => rfl
  | cons c cs => simp_all [parseDigits, digitStart]

/-- `parseDigits` consumes a rendered natural number whole, folding it onto
the accumulator in base 10, and continues with whatever follows. -/
theorem parseDigits_natChars (n : Nat) : ∀ (acc : Nat) (rest : List Char),
    parseDigits (natChars n ++ rest) acc
      = parseDigits rest (acc * 10 ^ (natChars n).length + n) := by
  induction n using Nat.strong_induction_on with
  | _ n ih =>
    intro acc rest
    by_cases h : n < 10
    · rw [natChars_small h]
      simp only [List.cons_append, List.nil_append, parseDigits,
        pyIsDigit_digitChar h, if_true, List.length_cons, List.length_nil]
      rw [pyDigitChar_toNat h]
      congr 1
      have : 48 + n - 48 = n := by omega
      rw [this, pow_succ, pow_zero]
      ring
    · rw [natChars_unfold h, List.append_assoc,
        ih (n / 10) (by omega) acc ([pyDigitChar (n % 10)] ++ rest)]
      have h10 : n % 10 < 10 := by omega
      simp only [List.cons_append, List.nil_append, parseDigits,
        pyIsDigit_digitChar h10, if_true]
      rw [pyDigitChar_toNat h10]
      congr 1
      have h48 : 48 + n % 10 - 48 = n % 10 := by omega
      have hl : (natChars (n / 10) ++ [pyDigitChar (n % 10)]).length
          = (natChars (n / 10)).length + 1 := by simp
      have hdm : n / 10 * 10 + n % 10 = n := by omega
      calc (acc * 10 ^ (natChars (n / 10)).length + n / 10) * 10
            + (48 + n % 10 - 48)
          = acc * (10 ^ (natChars (n / 10)).length * 10)
            + (n / 10 * 10 + n % 10) := by rw [h48]; ring
        _ = acc * 10 ^ ((natChars (n / 10)).length + 1) + n := by
            rw [pow_succ, hdm]
        _ = acc * 10 ^ (natChars (n / 10) ++ [pyDigitChar (n % 10)]).length
            + n := by rw [hl]

-- ==================== round-trip lemmas: strings ====================

theorem parseHex_hexChar {m : Nat} (h : m < 16) : parseHex (hexChar m) = some m := by
  by_cases h10 : m < 10
  · have ht : (hexChar m).toNat = 48 + m := by
      simp only [hexChar, if_pos h10, pyDigitChar]
      exact toNat_ofNat_small (by omega)
    simp only [parseHex, ht, if_pos (show 48 ≤ 48 + m ∧ 48 + m ≤ 57 by omega)]
    congr 1
    omega
  · have ht : (hexChar m).toNat = 87 + m := by
      simp only [hexChar, if_neg h10]
      exact toNat_ofNat_small (by omega)
    simp only [parseHex, ht, if_neg (show ¬ (48 ≤ 87 + m ∧ 87 + m ≤ 57) by omega),
      if_pos (show 97 ≤ 87 + m ∧ 87 + m ≤ 102 by omega)]
    congr 1
    omega

/-- Decoding inverts the escaping of one-character-at-a-time output:
the JSON string-body parser consumes the escaped rendering of `cs`, the
closing quote, and returns exactly `cs`. -/
theorem parseStringBody_escape (cs : List Char) : ∀ rest : List Char,
    parseStringBody ((cs.map escapeChar).flatten ++ '"' :: rest)
      = some (cs, rest) := by
  induction cs with
  | nil =>
    intro rest
    rw [parseStringBody.eq_def]
    simp
  | cons c cs ih =>
    intro rest
    simp only [List.map_cons, List.flatten_cons, List.append_assoc]
    by_cases h1 : c = '"'
    · rw [escapeChar, if_pos h1, h1, parseStringBody.eq_def]
      simp [unescapeChar, ih]
    · by_cases h2 : c = '\\'
      · rw [escapeChar, if_neg h1, if_pos h2, h2, parseStringBody.eq_def]
        simp [unescapeChar, ih]
      · by_cases h3 : c = '\n'
        · rw [escapeChar, if_neg h1, if_neg h2, if_pos h3, h3,
            parseStringBody.eq_def]
          simp [unescapeChar, ih]
        · by_cases h4 : c = '\t'
          · rw [escapeChar, if_neg h1, if_neg h2, if_neg h3, if_pos h4, h4,
              parseStringBody.eq_def]
            simp [unescapeChar, ih]
          · by_cases h5 : c = '\r'
            · rw [escapeChar, if_neg h1, if_neg h2, if_neg h3, if_neg h4,
                if_pos h5, h5, parseStringBody.eq_def]
              simp [unescapeChar, ih]
            · by_cases h6 : c = Char.ofNat 8
              · rw [escapeChar, if_neg h1, if_neg h2, if_neg h3, if_neg h4,
                  if_neg h5, if_pos h6, h6, parseStringBody.eq_def]
                simp [unescapeChar, ih]
              · by_cases h7 : c = Char.ofNat 12
                · rw [escapeChar, if_neg h1, if_neg h2, if_neg h3, if_neg h4,
                    if_neg h5, if_neg h6, if_pos h7, h7, parseStringBody.eq_def]
                  simp [unescapeChar, ih]
                · by_cases h8 : c.toNat < 32
                  · rw [escapeChar, if_neg h1, if_neg h2, if_neg h3, if_neg h4,
                      if_neg h5, if_neg h6, if_neg h7, if_pos h8,
                      parseStringBody.eq_def]
                    have hx1 := parseHex_hexChar (show c.toNat / 16 < 16 by omega)
                    have hx2 := parseHex_hexChar (show c.toNat % 16 < 16 by omega)
                    have h0 : parseHex '0' = some 0 := rfl
                    have hv : Nat.isValidChar c.toNat := Or.inl (by omega)
                    have hn : ((0 * 16 + 0) * 16 + c.toNat / 16) * 16
                        + c.toNat % 16 = c.toNat := by omega
                    have hn' : c.toNat / 16 * 16 + c.toNat % 16 = c.toNat := by
                      omega
                    simp [hx1, hx2, h0, hn, hn', hv, Char.ofNat_toNat, ih]
                  · rw [escapeChar, if_neg h1, if_neg h2, if_neg h3, if_neg h4,
                      if_neg h5, if_neg h6, if_neg h7, if_neg h8,
                      parseStringBody.eq_def]
                    simp [h1, h2, ih]

-- ==================== round-trip lemmas: values ====================

theorem dumps_vlist (xs : List Val) :
    dumps (.vlist xs) = '[' :: joinSep [',', ' '] (xs.map dumps) ++ [']'] := by
  rw [dumps]
  rw [List.attach_map_val xs (fun x => dumps x)]

theorem dumps_vdict (kvs : List (String × Val)) :
    dumps (.vdict kvs) = '\x7b' :: joinSep [',', ' ']
        (kvs.map (fun kv => escapeString kv.1 ++ ':' :: ' ' :: dumps kv.2))
      ++ ['\x7d'] := by
  rw [dumps]
  rw [List.attach_map_val kvs
    (fun kv => escapeString kv.1 ++ ':' :: ' ' :: dumps kv.2)]

/-- The fuel that suffices for `parseVal` to re-read a value: one step per
node plus one per collection element. -/
def fuelOf : Val → Nat
  | .vnull => 1
  | .vbool _ => 1
  | .vint _ => 1
  | .vstr _ => 1
  | .vlist xs => 1 + xs.length + (xs.attach.map (fun x => fuelOf x.1)).sum
  | .vdict kvs =>
    1 + kvs.length + (kvs.attach.map (fun kv => fuelOf kv.1.2)).sum
termination_by v => sizeOf v
decreasing_by
  · have h1 := List.sizeOf_lt_of_mem x.2
    simp only [Val.vlist.sizeOf_spec]
    omega
  · have h1 := List.sizeOf_lt_of_mem kv.2
    have h2 : sizeOf kv.1 = 1 + sizeOf kv.1.1 + sizeOf kv.1.2 := by
      rcases kv.1 with ⟨a, b⟩
      simp
    simp only [Val.vdict.sizeOf_spec]
    omega

theorem fuelOf_vlist (xs : List Val) :
    fuelOf (.vlist xs) = 1 + xs.length + (xs.map fuelOf).sum := by
  rw [fuelOf]
  rw [List.attach_map_val xs (fun x => fuelOf x)]

theorem fuelOf_vdict (kvs : List (String × Val)) :
    fuelOf (.vdict kvs)
      = 1 + kvs.length + (kvs.map (fun kv => fuelOf kv.2)).sum := by
  rw [fuelOf]
  rw [List.attach_map_val kvs (fun kv => fuelOf kv.2)]

theorem fuelOf_pos (x : Val) : 1 ≤ fuelOf x := by
  cases x <;> rw [fuelOf] <;> omega

theorem skipWs_notspace {c : Char} (h : pyIsSpace c = false) (cs : List Char) :
    skipWs (c :: cs) = c :: cs := by
  simp [skipWs, h]

theorem skipWs_space (cs : List Char) : skipWs (' ' :: cs) = skipWs cs := by
  simp [skipWs, pyIsSpace]

theorem parseVal_space (fuel : Nat) (cs : List Char) :
    parseVal fuel (' ' :: cs) = parseVal fuel cs := by
  cases fuel with
  | zero => rfl
  | succ f => simp only [parseVal, skipWs_space]

/-- Input shapes that may legitimately follow a value inside a JSON
document: end of input, a separator, or a closing bracket. -/
def delimB : List Char → Bool
  | [] => true
  | c :: _ => c = ',' || c = ']' || c = '\x7d'

theorem delim_digitStart {rest : List Char} (h : delimB rest = true) :
    digitStart rest = false := by
  cases rest with
  | nil => rfl
  | cons c cs =>
    simp only [delimB, Bool.or_eq_true, decide_eq_true_eq] at h
    rcases h with (h | h) | h <;> subst h <;> rfl

theorem delim_numberCont {rest : List Char} (h : delimB rest = true) :
    numberCont rest = false := by
  cases rest with
  | nil => rfl
  | cons c cs =>
    simp only [delimB, Bool.or_eq_true, decide_eq_true_eq] at h
    rcases h with (h | h) | h <;> subst h <;> rfl

/-- The parser `pv` re-reads the rendering of `x` whole, whatever
delimiter-headed input follows it. -/
def ParsesV (pv : List Char → Option (Val × List Char)) (x : Val) : Prop :=
  ∀ rest, delimB rest = true → pv (dumps x ++ rest) = some (x, rest)

theorem parseElems_space (pv : List Char → Option (Val × List Char))
    (hws : ∀ cs, pv (' ' :: cs) = pv cs) (fuel : Nat) (cs : List Char) :
    parseElems pv fuel (' ' :: cs) = parseElems pv fuel cs := by
  cases fuel with
  | zero => rfl
  | succ f => simp only [parseElems, hws]

theorem parseElems_correct (pv : List Char → Option (Val × List Char))
    (hws : ∀ cs, pv (' ' :: cs) = pv cs) :
    ∀ (xs : List Val), xs ≠ [] →
      (∀ x ∈ xs, ParsesV pv x) →
      ∀ (fuel : Nat), xs.length ≤ fuel →
      ∀ rest, delimB rest = true →
      parseElems pv fuel (joinSep [',', ' '] (xs.map dumps) ++ ']' :: rest)
        = some (xs, rest) := by
  intro xs
  induction xs with
  | nil => intro h; exact absurd rfl h
  | cons x xs ih =>
    intro _ hpv fuel hlen rest hrest
    match fuel, hlen with
    | fuel + 1, hlen =>
      cases xs with
      | nil =>
        have hx := hpv x (by simp) (']' :: rest) (by simp [delimB])
        simp only [List.map_cons, List.map_nil, joinSep, parseElems, hx,
          Option.some_bind]
        rw [skipWs_notspace (by rfl) rest]
        simp
      | cons y ys =>
        have hx := hpv x (by simp)
          (',' :: ' '
            :: (joinSep [',', ' '] ((y :: ys).map dumps) ++ ']' :: rest))
          (by simp [delimB])
        simp only [List.map_cons] at hx ⊢
        rw [joinSep, List.append_assoc, List.append_assoc]
        have hsep : ([',', ' ']
            ++ (joinSep [',', ' '] (dumps y :: ys.map dumps) ++ ']' :: rest))
            = ',' :: ' '
              :: (joinSep [',', ' '] (dumps y :: ys.map dumps)
                ++ ']' :: rest) := rfl
        rw [hsep]
        simp only [parseElems, hx, Option.some_bind]
        rw [skipWs_notspace (by rfl)]
        simp only [if_pos rfl, parseElems_space pv hws]
        have hrec := ih (by simp)
          (fun z hz => hpv z (List.mem_cons_of_mem x hz)) fuel
          (by simpa using Nat.le_of_succ_le_succ hlen) rest hrest
        simp only [List.map_cons] at hrec
        rw [hrec]
        simp

theorem string_mk_data (s : String) : String.mk s.data = s := rfl

theorem parseMembers_space (pv : List Char → Option (Val × List Char))
    (fuel : Nat) (cs : List Char) :
    parseMembers pv fuel (' ' :: cs) = parseMembers pv fuel cs := by
  cases fuel with
  | zero => rfl
  | succ f => simp only [parseMembers, skipWs_space]

theorem parseMembers_correct (pv : List Char → Option (Val × List Char))
    (hws : ∀ cs, pv (' ' :: cs) = pv cs) :
    ∀ (kvs : List (String × Val)), kvs ≠ [] →
      (∀ kv ∈ kvs, ParsesV pv kv.2) →
      ∀ (fuel : Nat), kvs.length ≤ fuel →
      ∀ rest, delimB rest = true →
      parseMembers pv fuel
        (joinSep [',', ' ']
          (kvs.map (fun kv => escapeString kv.1 ++ ':' :: ' ' :: dumps kv.2))
          ++ '\x7d' :: rest)
        = some (kvs, rest) := by
  intro kvs
  induction kvs with
  | nil => intro h; exact absurd rfl h
  | cons kv kvs ih =>
    intro _ hpv fuel hlen rest hrest
    match fuel, hlen with
    | fuel + 1, hlen =>
      rcases kv with ⟨k, v⟩
      cases kvs with
      | nil =>
        have hb := parseStringBody_escape k.data
          (':' :: ' ' :: (dumps v ++ '\x7d' :: rest))
        have hv := hpv (k, v) (by simp) ('\x7d' :: rest) (by simp [delimB])
        simp only [List.map_cons, List.map_nil, joinSep, escapeString,
          List.cons_append, List.nil_append, List.append_assoc,
          List.singleton_append] at hv ⊢
        simp [parseMembers, skipWs, pyIsSpace, hb, hws, hv, string_mk_data]
      | cons kv2 kvs2 =>
        have hrec := ih (by simp)
          (fun z hz => hpv z (List.mem_cons_of_mem (k, v) hz)) fuel
          (by simpa using Nat.le_of_succ_le_succ hlen) rest hrest
        have hv := hpv (k, v) (by simp)
          (',' :: ' '
            :: (joinSep [',', ' ']
                ((kv2 :: kvs2).map
                  (fun p => escapeString p.1 ++ ':' :: ' ' :: dumps p.2))
              ++ '\x7d' :: rest))
          (by simp [delimB])
        have hb := parseStringBody_escape k.data
          (':' :: ' ' :: (dumps v ++ ',' :: ' '
            :: (joinSep [',', ' ']
                ((kv2 :: kvs2).map
                  (fun p => escapeString p.1 ++ ':' :: ' ' :: dumps p.2))
              ++ '\x7d' :: rest)))
        simp only [List.map_cons, joinSep, escapeString,
          List.cons_append, List.nil_append, List.append_assoc,
          List.singleton_append] at hv hb hrec ⊢
        simp [parseMembers, skipWs, pyIsSpace, hb, hws, hv,
          parseMembers_space, hrec, string_mk_data]

theorem parseElems_mono (pv1 pv2 : List Char → Option (Val × List Char))
    (hpv : ∀ cs r, pv1 cs = some r → pv2 cs = some r) :
    ∀ (f1 f2 : Nat), f1 ≤ f2 → ∀ cs r,
      parseElems pv1 f1 cs = some r → parseElems pv2 f2 cs = some r := by
  intro f1
  induction f1 with
  | zero => intro f2 _ cs r h; simp [parseElems] at h
  | succ f1 ih =>
    intro f2 hle cs r h
    match f2, hle with
    | f2 + 1, _ =>
      simp only [parseElems] at h ⊢
      cases hp : pv1 cs with
      | none => rw [hp] at h; simp at h
      | some p =>
        rw [hp] at h
        rw [hpv cs p hp]
        simp only [Option.some_bind] at h ⊢
        cases hs : skipWs p.2 with
        | nil => rw [hs] at h; simp at h
        | cons d cs2 =>
          rw [hs] at h
          dsimp only at h ⊢
          by_cases hd : d = ','
          · rw [if_pos hd] at h ⊢
            cases hq : parseElems pv1 f1 cs2 with
            | none => rw [hq] at h; simp at h
            | some q =>
              rw [hq] at h
              rw [ih f2 (by omega) cs2 q hq]
              exact h
          · rw [if_neg hd] at h ⊢
            exact h

theorem parseMembers_mono (pv1 pv2 : List Char → Option (Val × List Char))
    (hpv : ∀ cs r, pv1 cs = some r → pv2 cs = some r) :
    ∀ (f1 f2 : Nat), f1 ≤ f2 → ∀ cs r,
      parseMembers pv1 f1 cs = some r → parseMembers pv2 f2 cs = some r := by
  intro f1
  induction f1 with
  | zero => intro f2 _ cs r h; simp [parseMembers] at h
  | succ f1 ih =>
    intro f2 hle cs r h
    match f2, hle with
    | f2 + 1, _ =>
      simp only [parseMembers] at h ⊢
      cases hs : skipWs cs with
      | nil => rw [hs] at h; simp at h
      | cons q cs1 =>
        rw [hs] at h
        dsimp only at h ⊢
        by_cases hq : q = '"'
        · rw [if_pos hq] at h ⊢
          cases hb : parseStringBody cs1 with
          | none => rw [hb] at h; simp at h
          | some kp =>
            rw [hb] at h
            simp only [Option.some_bind] at h ⊢
            cases hs2 : skipWs kp.2 with
            | nil => rw [hs2] at h; simp at h
            | cons colon cs3 =>
              rw [hs2] at h
              dsimp only at h ⊢
              by_cases hc : colon = ':'
              · rw [if_pos hc] at h ⊢
                cases hv1 : pv1 cs3 with
                | none => rw [hv1] at h; simp at h
                | some vp =>
                  rw [hv1] at h
                  rw [hpv cs3 vp hv1]
                  simp only [Option.some_bind] at h ⊢
                  cases hs4 : skipWs vp.2 with
                  | nil => rw [hs4] at h; simp at h
                  | cons d cs5 =>
                    rw [hs4] at h
                    dsimp only at h ⊢
                    by_cases hd : d = ','
                    · rw [if_pos hd] at h ⊢
                      cases hm : parseMembers pv1 f1 cs5 with
                      | none => rw [hm] at h; simp at h
                      | some m =>
                        rw [hm] at h
                        rw [ih f2 (by omega) cs5 m hm]
                        exact h
                    · rw [if_neg hd] at h ⊢
                      exact h
              · rw [if_neg hc] at h ⊢
                exact h
        · rw [if_neg hq] at h ⊢
          exact h


theorem parseVal_mono : ∀ (f1 f2 : Nat), f1 ≤ f2 → ∀ cs r,
    parseVal f1 cs = some r → parseVal f2 cs = some r := by
  intro f1
  induction f1 with
  | zero => intro f2 _ cs r h; simp [parseVal] at h
  | succ f1 ih =>
    intro f2 hle cs r h
    match f2, hle with
    | f2 + 1, _ =>
      simp only [parseVal] at h ⊢
      cases hs : skipWs cs with
      | nil => rw [hs] at h; simp at h
      | cons c rest =>
        rw [hs] at h
        dsimp only at h ⊢
        by_cases h1 : c = 'n'
        · rw [if_pos h1] at h ⊢; exact h
        · rw [if_neg h1] at h ⊢
          by_cases h2 : c = 't'
          · rw [if_pos h2] at h ⊢; exact h
          · rw [if_neg h2] at h ⊢
            by_cases h3 : c = 'f'
            · rw [if_pos h3] at h ⊢; exact h
            · rw [if_neg h3] at h ⊢
              by_cases h4 : c = '"'
              · rw [if_pos h4] at h ⊢; exact h
              · rw [if_neg h4] at h ⊢
                by_cases h5 : c = '['
                · rw [if_pos h5] at h ⊢
                  cases hs2 : skipWs rest with
                  | nil => rw [hs2] at h; simp at h
                  | cons d rest2 =>
                    rw [hs2] at h
                    dsimp only at h ⊢
                    by_cases hd : d = ']'
                    · rw [if_pos hd] at h ⊢; exact h
                    · rw [if_neg hd] at h ⊢
                      cases he : parseElems (parseVal f1) f1 rest with
                      | none => rw [he] at h; simp at h
                      | some p =>
                        rw [he] at h
                        rw [parseElems_mono (parseVal f1) (parseVal f2)
                          (fun cs r => ih f2 (by omega) cs r) f1 f2
                          (by omega) rest p he]
                        exact h
                · rw [if_neg h5] at h ⊢
                  by_cases h6 : c = '\x7b'
                  · rw [if_pos h6] at h ⊢
                    cases hs2 : skipWs rest with
                    | nil => rw [hs2] at h; simp at h
                    | cons d rest2 =>
                      rw [hs2] at h
                      dsimp only at h ⊢
                      by_cases hd : d = '\x7d'
                      · rw [if_pos hd] at h ⊢; exact h
                      · rw [if_neg hd] at h ⊢
                        cases he : parseMembers (parseVal f1) f1 rest with
                        | none => rw [he] at h; simp at h
                        | some p =>
                          rw [he] at h
                          rw [parseMembers_mono (parseVal f1) (parseVal f2)
                            (fun cs r => ih f2 (by omega) cs r) f1 f2
                            (by omega) rest p he]
                          exact h
                  · rw [if_neg h6] at h ⊢
                    exact h

theorem pyIsSpace_eq_false {c : Char} (h1 : c ≠ ' ') (h2 : c ≠ '\t')
    (h3 : c ≠ '\n') (h4 : c ≠ '\r') : pyIsSpace c = false := by
  simp [pyIsSpace, h1, h2, h3, h4]

theorem digit_ne_char {c : Char} (h48 : 48 ≤ c.toNat) (h57 : c.toNat ≤ 57)
    {d : Char} (hd : d.toNat < 48 ∨ 57 < d.toNat) : c ≠ d := by
  apply char_ne_of_toNat
  omega

/-- A decimal digit is not whitespace and not any of the structural JSON
characters the scanner dispatches on. -/
theorem digit_facts {c : Char} (h : pyIsDigit c = true) :
    pyIsSpace c = false ∧ c ≠ 'n' ∧ c ≠ 't' ∧ c ≠ 'f' ∧ c ≠ '"' ∧ c ≠ '['
      ∧ c ≠ '\x7b' ∧ c ≠ '-' ∧ c ≠ ']' ∧ c ≠ '\x7d' := by
  simp only [pyIsDigit, Bool.and_eq_true, decide_eq_true_eq] at h
  obtain ⟨h48, h57⟩ := h
  refine ⟨pyIsSpace_eq_false ?_ ?_ ?_ ?_, ?_, ?_, ?_, ?_, ?_, ?_, ?_, ?_, ?_⟩
    <;> exact digit_ne_char h48 h57 (by decide)

/-- The first character of a rendered value is never whitespace and never a
closing bracket. -/
theorem dumps_head (x : Val) : ∃ c cs, dumps x = c :: cs
    ∧ pyIsSpace c = false ∧ c ≠ ']' ∧ c ≠ '\x7d' := by
  cases x with
  | vnull =>
    exact ⟨'n', "ull".data, by rw [dumps], by decide, by decide, by decide⟩
  | vbool b =>
    cases b with
    | true =>
      exact ⟨'t', "rue".data, by rw [dumps], by decide, by decide, by decide⟩
    | false =>
      exact ⟨'f', "alse".data, by rw [dumps], by decide, by decide, by decide⟩
  | vint n =>
    rw [show dumps (Val.vint n) = intChars n from by rw [dumps]]
    by_cases hneg : n < 0
    · refine ⟨'-', natChars n.natAbs, ?_, by decide, by decide, by decide⟩
      simp [intChars, hneg]
    · obtain ⟨hne, hdig⟩ := natChars_digits n.toNat
      obtain ⟨c, cs, hc⟩ := List.exists_cons_of_ne_nil hne
      have hcd : pyIsDigit c = true := hdig c (by rw [hc]; simp)
      obtain ⟨hsp, _, _, _, _, _, _, _, hne1, hne2⟩ := digit_facts hcd
      refine ⟨c, cs, ?_, hsp, hne1, hne2⟩
      simp [intChars, hneg, hc]
  | vstr s =>
    refine ⟨'"', (s.data.map escapeChar).flatten ++ ['"'], ?_, by decide,
      by decide, by decide⟩
    rw [dumps]
    rfl
  | vlist xs =>
    exact ⟨'[', joinSep [',', ' '] (xs.map dumps) ++ [']'],
      by rw [dumps_vlist]; simp, by decide, by decide, by decide⟩
  | vdict kvs =>
    exact ⟨'\x7b', joinSep [',', ' ']
        (kvs.map (fun kv => escapeString kv.1 ++ ':' :: ' ' :: dumps kv.2))
      ++ ['\x7d'], by rw [dumps_vdict]; simp, by decide, by decide,
      by decide⟩

/-- `joinSep` over a non-empty list starts with the first piece. -/
theorem joinSep_cons_ex (sep : List Char) (x : List Char)
    (l : List (List Char)) : ∃ q, joinSep sep (x :: l) = x ++ q := by
  cases l with
  | nil => exact ⟨[], by simp [joinSep]⟩
  | cons b m => exact ⟨sep ++ joinSep sep (b :: m), by simp [joinSep]⟩

theorem sizeOf_mem_vlist {x : Val} {xs : List Val} (h : x ∈ xs) :
    sizeOf x < sizeOf (Val.vlist xs) := by
  have h1 := List.sizeOf_lt_of_mem h
  simp only [Val.vlist.sizeOf_spec]
  omega

theorem sizeOf_mem_vdict {kv : String × Val} {kvs : List (String × Val)}
    (h : kv ∈ kvs) : sizeOf kv.2 < sizeOf (Val.vdict kvs) := by
  have h1 := List.sizeOf_lt_of_mem h
  have h2 : sizeOf kv = 1 + sizeOf kv.1 + sizeOf kv.2 := by
    rcases kv with ⟨a, b⟩
    simp
  simp only [Val.vdict.sizeOf_spec]
  omega

/-- Round trip, inner induction: the value parser re-reads every rendered
value whole, given fuel at least `fuelOf`. -/
theorem parseVal_dump_main : ∀ (N : Nat) (x : Val), sizeOf x ≤ N →
    ∀ (fuel : Nat), fuelOf x ≤ fuel → ParsesV (parseVal fuel) x := by
  intro N
  induction N with
  | zero =>
    intro x hx
    exfalso
    cases x <;> simp at hx
  | succ N ih =>
    intro x hx fuel hfuel rest hrest
    have hfp := fuelOf_pos x
    obtain ⟨fuel, rfl⟩ : ∃ f, fuel = f + 1 := ⟨fuel - 1, by omega⟩
    cases x with
    | vnull =>
      rw [show dumps Val.vnull = ['n', 'u', 'l', 'l'] from by rw [dumps]]
      simp [parseVal, skipWs, pyIsSpace, expectChars]
    | vbool b =>
      cases b with
      | true =>
        rw [show dumps (Val.vbool true) = ['t', 'r', 'u', 'e'] from by
          rw [dumps]]
        simp [parseVal, skipWs, pyIsSpace, expectChars]
      | false =>
        rw [show dumps (Val.vbool false) = ['f', 'a', 'l', 's', 'e'] from by
          rw [dumps]]
        simp [parseVal, skipWs, pyIsSpace, expectChars]
    | vstr s =>
      rw [show dumps (Val.vstr s)
          = '"' :: ((s.data.map escapeChar).flatten ++ ['"']) from by
        rw [dumps]; rfl]
      simp only [List.cons_append, List.append_assoc, List.singleton_append,
        List.nil_append]
      simp only [parseVal]
      rw [skipWs_notspace (by rfl)]
      dsimp only
      rw [if_neg (by decide : ¬ ('"' : Char) = 'n'),
        if_neg (by decide : ¬ ('"' : Char) = 't'),
        if_neg (by decide : ¬ ('"' : Char) = 'f'),
        if_pos rfl]
      rw [parseStringBody_escape s.data rest]
      simp [string_mk_data]
    | vint n =>
      rw [show dumps (Val.vint n) = intChars n from by rw [dumps]]
      by_cases hneg : n < 0
      · rw [show intChars n = '-' :: natChars n.natAbs from by
          simp [intChars, hneg]]
        simp only [List.cons_append, parseVal]
        rw [skipWs_notspace (by rfl)]
        dsimp only
        rw [if_neg (by decide : ¬ ('-' : Char) = 'n'),
          if_neg (by decide : ¬ ('-' : Char) = 't'),
          if_neg (by decide : ¬ ('-' : Char) = 'f'),
          if_neg (by decide : ¬ ('-' : Char) = '"'),
          if_neg (by decide : ¬ ('-' : Char) = '['),
          if_neg (by decide : ¬ ('-' : Char) = '\x7b'),
          if_pos rfl]
        obtain ⟨hne, hdig⟩ := natChars_digits n.natAbs
        obtain ⟨c, cs, hc⟩ := List.exists_cons_of_ne_nil hne
        have hcd : pyIsDigit c = true := hdig c (by rw [hc]; simp)
        rw [hc]
        simp only [List.cons_append]
        rw [if_pos hcd]
        have hpd : parseDigits (c :: (cs ++ rest)) 0 = (n.natAbs, rest) := by
          have heq : c :: (cs ++ rest) = natChars n.natAbs ++ rest := by
            rw [hc]
            simp
          rw [heq, parseDigits_natChars]
          simp only [Nat.zero_mul, Nat.zero_add]
          exact parseDigits_stop _ (delim_digitStart hrest)
        rw [hpd]
        dsimp only
        rw [delim_numberCont hrest]
        simp only [Bool.false_eq_true, if_false]
        have hval : -((n.natAbs : Nat) : Int) = n := by omega
        rw [hval]
      · obtain ⟨hne, hdig⟩ := natChars_digits n.toNat
        obtain ⟨c, cs, hc⟩ := List.exists_cons_of_ne_nil hne
        have hcd : pyIsDigit c = true := hdig c (by rw [hc]; simp)
        obtain ⟨hsp, hn1, hn2, hn3, hn4, hn5, hn6, hn7, _, _⟩ :=
          digit_facts hcd
        rw [show intChars n = natChars n.toNat from by simp [intChars, hneg]]
        rw [hc]
        simp only [List.cons_append, parseVal]
        rw [skipWs_notspace hsp]
        dsimp only
        rw [if_neg hn1, if_neg hn2, if_neg hn3, if_neg hn4, if_neg hn5,
          if_neg hn6, if_neg hn7, if_pos hcd]
        have hpd : parseDigits (c :: (cs ++ rest)) 0 = (n.toNat, rest) := by
          have heq : c :: (cs ++ rest) = natChars n.toNat ++ rest := by
            rw [hc]
            simp
          rw [heq, parseDigits_natChars]
          simp only [Nat.zero_mul, Nat.zero_add]
          exact parseDigits_stop _ (delim_digitStart hrest)
        rw [hpd]
        dsimp only
        rw [delim_numberCont hrest]
        simp only [Bool.false_eq_true, if_false]
        have hval : ((n.toNat : Nat) : Int) = n := by omega
        rw [hval]
    | vlist xs =>
      cases xs with
      | nil =>
        rw [show dumps (Val.vlist []) = ['[', ']'] from by
          rw [dumps_vlist]; rfl]
        simp [parseVal, skipWs, pyIsSpace]
      | cons y ys =>
        rw [dumps_vlist]
        simp only [List.map_cons, List.cons_append, List.append_assoc,
          List.singleton_append, List.nil_append]
        simp only [parseVal]
        rw [skipWs_notspace (by rfl)]
        dsimp only
        rw [if_neg (by decide : ¬ ('[' : Char) = 'n'),
          if_neg (by decide : ¬ ('[' : Char) = 't'),
          if_neg (by decide : ¬ ('[' : Char) = 'f'),
          if_neg (by decide : ¬ ('[' : Char) = '"'),
          if_pos rfl]
        obtain ⟨c, cs, hdy, hdsp, hne1, hne2⟩ := dumps_head y
        obtain ⟨q, hjoin⟩ :=
          joinSep_cons_ex [',', ' '] (dumps y) (ys.map dumps)
        rw [show skipWs (joinSep [',', ' '] (dumps y :: List.map dumps ys)
              ++ ']' :: rest) = c :: (cs ++ (q ++ ']' :: rest)) from by
          rw [hjoin, hdy]
          simp only [List.cons_append, List.append_assoc]
          exact skipWs_notspace hdsp _]
        dsimp only
        rw [if_neg hne1]
        have hlen1 : (y :: ys).length = ys.length + 1 := by simp
        have hfuel' : 1 + (y :: ys).length
            + ((y :: ys).map fuelOf).sum ≤ fuel + 1 := by
          rw [← fuelOf_vlist]
          exact hfuel
        have hsum : ((y :: ys).map fuelOf).sum
            = fuelOf y + (ys.map fuelOf).sum := by simp
        have hpv : ∀ z ∈ y :: ys, ParsesV (parseVal fuel) z := by
          intro z hz
          have hsz : sizeOf z ≤ N := by
            have := sizeOf_mem_vlist hz
            omega
          have hfz : fuelOf z ≤ fuel := by
            have h1 : fuelOf z ≤ ((y :: ys).map fuelOf).sum :=
              elem_le_sum (List.mem_map_of_mem fuelOf hz)
            omega
          exact ih z hsz fuel hfz
        have hlem := parseElems_correct (parseVal fuel) (parseVal_space fuel)
          (y :: ys) (by simp) hpv fuel (by omega) rest hrest
        simp only [List.map_cons] at hlem
        rw [hlem]
        rfl
    | vdict kvs =>
      cases kvs with
      | nil =>
        rw [show dumps (Val.vdict []) = ['\x7b', '\x7d'] from by
          rw [dumps_vdict]; rfl]
        simp [parseVal, skipWs, pyIsSpace]
      | cons kv kvs2 =>
        rcases kv with ⟨k, v⟩
        rw [dumps_vdict]
        simp only [List.map_cons, List.cons_append, List.append_assoc,
          List.singleton_append, List.nil_append]
        simp only [parseVal]
        rw [skipWs_notspace (by rfl)]
        dsimp only
        rw [if_neg (by decide : ¬ ('\x7b' : Char) = 'n'),
          if_neg (by decide : ¬ ('\x7b' : Char) = 't'),
          if_neg (by decide : ¬ ('\x7b' : Char) = 'f'),
          if_neg (by decide : ¬ ('\x7b' : Char) = '"'),
          if_neg (by decide : ¬ ('\x7b' : Char) = '['),
          if_pos rfl]
        obtain ⟨q, hjoin⟩ := joinSep_cons_ex [',', ' ']
          (escapeString k ++ ':' :: ' ' :: dumps v)
          (kvs2.map (fun p => escapeString p.1 ++ ':' :: ' ' :: dumps p.2))
        rw [show skipWs (joinSep [',', ' ']
              ((escapeString k ++ ':' :: ' ' :: dumps v)
                :: List.map
                  (fun p => escapeString p.1 ++ ':' :: ' ' :: dumps p.2) kvs2)
              ++ '\x7d' :: rest)
            = '"' :: (((k.data.map escapeChar).flatten ++ ['"'])
                ++ (':' :: ' ' :: dumps v ++ (q ++ '\x7d' :: rest))) from by
          rw [hjoin]
          simp only [escapeString, List.cons_append, List.append_assoc]
          exact skipWs_notspace (by rfl) _]
        dsimp only
        rw [if_neg (by decide : ¬ ('"' : Char) = '\x7d')]
        have hlen1 : ((k, v) :: kvs2).length = kvs2.length + 1 := by simp
        have hfuel' : 1 + ((k, v) :: kvs2).length
            + (((k, v) :: kvs2).map (fun p => fuelOf p.2)).sum ≤ fuel + 1 := by
          rw [← fuelOf_vdict]
          exact hfuel
        have hpv : ∀ z ∈ (k, v) :: kvs2, ParsesV (parseVal fuel) z.2 := by
          intro z hz
          have hsz : sizeOf z.2 ≤ N := by
            have := sizeOf_mem_vdict hz
            omega
          have hfz : fuelOf z.2 ≤ fuel := by
            have h1 : fuelOf z.2
                ≤ (((k, v) :: kvs2).map (fun p => fuelOf p.2)).sum :=
              elem_le_sum (List.mem_map_of_mem (fun p => fuelOf p.2) hz)
            omega
          exact ih z.2 hsz fuel hfz
        have hlem := parseMembers_correct (parseVal fuel) (parseVal_space fuel)
          ((k, v) :: kvs2) (by simp) hpv fuel (by omega) rest hrest
        simp only [List.map_cons] at hlem
        rw [hlem]
        rfl

/-- Round trip, packaged: enough fuel re-reads any rendered value. -/
theorem parseVal_dump (x : Val) (fuel : Nat) (h : fuelOf x ≤ fuel) :
    ParsesV (parseVal fuel) x :=
  parseVal_dump_main (sizeOf x) x (le_refl _) fuel h

theorem joinSep_length2 :
    ∀ (l : List (List Char)), (joinSep [',', ' '] l).length
      = (l.map List.length).sum + 2 * (l.length - 1) := by
  intro l
  induction l with
  | nil => simp [joinSep]
  | cons x m ih =>
    cases m with
    | nil => simp [joinSep]
    | cons b m2 =>
      rw [joinSep]
      simp only [List.length_append]
      rw [ih]
      simp only [List.map_cons, List.sum_cons, List.length_cons,
        List.length_nil]
      omega

/-- The fuel needed by the parser never exceeds the rendered length. -/
theorem fuelOf_le_dump : ∀ (N : Nat) (x : Val), sizeOf x ≤ N →
    fuelOf x ≤ (dumps x).length := by
  intro N
  induction N with
  | zero =>
    intro x hx
    exfalso
    cases x <;> simp at hx
  | succ N ih =>
    intro x hx
    cases x with
    | vnull => rw [fuelOf, show dumps Val.vnull = ['n', 'u', 'l', 'l'] from by
        rw [dumps]]; simp
    | vbool b =>
      cases b with
      | true => rw [fuelOf, show dumps (Val.vbool true) = ['t', 'r', 'u', 'e']
          from by rw [dumps]]; simp
      | false => rw [fuelOf, show dumps (Val.vbool false)
          = ['f', 'a', 'l', 's', 'e'] from by rw [dumps]]; simp
    | vint n =>
      rw [fuelOf, show dumps (Val.vint n) = intChars n from by rw [dumps]]
      have hne : natChars n.natAbs ≠ [] := (natChars_digits n.natAbs).1
      have hne2 : natChars n.toNat ≠ [] := (natChars_digits n.toNat).1
      by_cases hneg : n < 0
      · simp [intChars, hneg]
      · simp only [intChars, if_neg hneg]
        have := List.length_pos.mpr hne2
        omega
    | vstr s =>
      rw [fuelOf, show dumps (Val.vstr s)
          = '"' :: ((s.data.map escapeChar).flatten ++ ['"']) from by
        rw [dumps]; rfl]
      simp
    | vlist xs =>
      cases xs with
      | nil =>
        rw [fuelOf_vlist, dumps_vlist]
        simp [joinSep]
      | cons y ys =>
        rw [fuelOf_vlist, dumps_vlist]
        simp only [List.length_cons, List.length_append, joinSep_length2,
          List.length_map, List.length_nil]
        have hb : ((y :: ys).map fuelOf).sum
            ≤ (((y :: ys).map dumps).map List.length).sum := by
          rw [List.map_map]
          refine List.sum_le_sum ?_
          intro z hz
          have hsz : sizeOf z ≤ N := by
            have := sizeOf_mem_vlist hz
            omega
          exact ih z hsz
        have hl1 : (y :: ys).length = ys.length + 1 := by simp
        have hl2 : ((y :: ys).map dumps).length = ys.length + 1 := by simp
        omega
    | vdict kvs =>
      cases kvs with
      | nil =>
        rw [fuelOf_vdict, dumps_vdict]
        simp [joinSep]
      | cons kv kvs2 =>
        rw [fuelOf_vdict, dumps_vdict]
        simp only [List.length_cons, List.length_append, joinSep_length2,
          List.length_map, List.length_nil]
        have hb : ((kv :: kvs2).map (fun p => fuelOf p.2)).sum
            ≤ (((kv :: kvs2).map
                (fun p => escapeString p.1 ++ ':' :: ' ' :: dumps p.2)).map
              List.length).sum := by
          rw [List.map_map]
          refine List.sum_le_sum ?_
          intro z hz
          have hsz : sizeOf z.2 ≤ N := by
            have := sizeOf_mem_vdict hz
            omega
          have h1 := ih z.2 hsz
          simp only [Function.comp_apply, List.length_append,
            List.length_cons]
          omega
        have hl1 : (kv :: kvs2).length = kvs2.length + 1 := by simp
        have hl2 : ((kv :: kvs2).map
            (fun p => escapeString p.1 ++ ':' :: ' ' :: dumps p.2)).length
            = kvs2.length + 1 := by simp
        omega

/-- The JSON round trip of the Python `json` module, as exercised by
`MQTTClient.publish` and `MQTTClient._on_message`: decoding inverts
encoding on every embeddable payload value. -/
theorem loads_dumps (x : Val) : loads (String.mk (dumps x)) = some x := by
  unfold loads
  have hle : fuelOf x ≤ (dumps x).length + 1 :=
    le_trans (fuelOf_le_dump (sizeOf x) x (le_refl _)) (Nat.le_succ _)
  have h := parseVal_dump x ((dumps x).length + 1) hle [] (by rfl)
  rw [List.append_nil] at h
  have hd : (String.mk (dumps x)).data = dumps x := rfl
  rw [hd, h]
  rfl

-- ==================== data model (`models.py`) ====================

/-- `RollType` enum (`Power` / `Technique` / `Agility`). -/
inductive RollType where
  | POWER
  | TECHNIQUE
  | AGILITY
  deriving DecidableEq, Repr

/-- The enum member's `.value` string. -/
def RollType.value : RollType → String
  | .POWER => "Power"
  | .TECHNIQUE => "Technique"
  | .AGILITY => "Agility"

/-- The enum constructor `RollType(s)`: `none` models the `ValueError`
raised on a string that is not a member value. -/
def RollType.fromValue (s : String) : Option RollType :=
  if s = "Power" then some .POWER
  else if s = "Technique" then some .TECHNIQUE
  else if s = "Agility" then some .AGILITY
  else none

/-- `TurnRoll` dataclass.  The dataclass annotates `value: int`; the
replica side stores whatever decoded payload field arrives, so the model
uses `Val` (the controller always stores a `vint`). -/
structure TurnRoll where
  roll_type : RollType
  value : Val

/-- `PlayerState` dataclass with its field defaults. -/
structure PlayerState where
  player_id : Int
  competitor_uuid : Option String := none
  hand_count : Int := 0
  deck_count : Int := 30
  discard_pile : List String := []
  in_play : List String := []
  last_turn_roll : Option TurnRoll := none
  turns_passed : Int := 0
  finish_roll : Option Int := none
  breakout_rolls : List Int := []

/-- `MatchState` dataclass with its field defaults. -/
structure MatchState where
  match_id : String
  title : String
  stipulations : String
  crowd_meter : Int := 0
  started_at : Option Int := none
  player1 : PlayerState := { player_id := 1 }
  player2 : PlayerState := { player_id := 2 }

-- ==================== publisher (`controller/publisher.py`) ====================

/-- One `mqtt.publish` call: topic, the payload value as passed (before
wire encoding), QoS and the retain flag. -/
structure Pub where
  topic : String
  payload : Val
  qos : Nat
  retain : Bool

/-- The `message` string computed inside `MQTTClient.publish`:
the payload itself when it is a `str`, its `json.dumps` rendering
otherwise. -/
def MQTTClient.encodePayload (payload : Val) : String :=
  match payload with
  | .vstr s => s
  | p => String.mk (dumps p)

/-- The payload value `MQTTClient._on_message` hands to callbacks: the
`json.loads` decoding of the wire string when it parses, the raw string
otherwise. -/
def MQTTClient.on_message_payload (payload_str : String) : Val :=
  match loads payload_str with
  | some v => v
  | none => .vstr payload_str

namespace MatchPublisher

/-- `None`-or-string payload field (`json` renders `None` as `null`). -/
def optStr : Option String → Val
  | some s => .vstr s
  | none => .vnull

/-- `None`-or-int payload field. -/
def optInt : Option Int → Val
  | some n => .vint n
  | none => .vnull

/-- The payload dict assembled by `publish_match_init`. -/
def initPayload (ms : MatchState) : Val :=
  .vdict
    [("match_id", .vstr ms.match_id),
     ("title", .vstr ms.title),
     ("stipulations", .vstr ms.stipulations),
     ("player1_competitor", optStr ms.player1.competitor_uuid),
     ("player2_competitor", optStr ms.player2.competitor_uuid),
     ("started_at", optInt ms.started_at)]

/-- `publish_match_init`: one retained QoS-1 publish on the init topic. -/
def publish_match_init (ms : MatchState) : Except PyErr Pub :=
  .ok ⟨Topics.MATCH_INIT, initPayload ms, 1, true⟩

/-- `publish_match_reset`. -/
def publish_match_reset : Except PyErr Pub :=
  .ok ⟨Topics.MATCH_RESET, .vdict [], 1, true⟩

/-- `publish_match_title`. -/
def publish_match_title (title : String) : Except PyErr Pub :=
  .ok ⟨Topics.MATCH_TITLE, .vstr title, 1, true⟩

/-- `publish_match_stipulations`. -/
def publish_match_stipulations (stipulations : String) : Except PyErr Pub :=
  .ok ⟨Topics.MATCH_STIPULATIONS, .vstr stipulations, 1, true⟩

/-- `publish_crowd_meter`. -/
def publish_crowd_meter (value : Int) : Except PyErr Pub :=
  .ok ⟨Topics.MATCH_CROWD_METER, .vint value, 1, true⟩

/-- `publish_player_competitor`: publishes the UUID, or `""` when the
field is `None` (Python truthiness on the optional string). -/
def publish_player_competitor (player_id : Int) (uuid : Option String) :
    Except PyErr Pub :=
  .ok ⟨Topics.player_topic Topics.PLAYER_COMPETITOR player_id,
    .vstr (match uuid with | some u => u | none => ""), 1, true⟩

/-- `publish_player_hand_count`. -/
def publish_player_hand_count (player_id : Int) (count : Int) :
    Except PyErr Pub :=
  .ok ⟨Topics.player_topic Topics.PLAYER_HAND_COUNT player_id,
    .vint count, 1, true⟩

/-- `publish_player_deck_count`. -/
def publish_player_deck_count (player_id : Int) (count : Int) :
    Except PyErr Pub :=
  .ok ⟨Topics.player_topic Topics.PLAYER_DECK_COUNT player_id,
    .vint count, 1, true⟩

/-- `publish_player_turn_roll`: structured `{roll_type, value}` payload. -/
def publish_player_turn_roll (player_id : Int) (turn_roll : TurnRoll) :
    Except PyErr Pub :=
  .ok ⟨Topics.player_topic Topics.PLAYER_TURN_ROLL player_id,
    .vdict [("roll_type", .vstr turn_roll.roll_type.value),
            ("value", turn_roll.value)], 1, true⟩

/-- `publish_player_turns_passed`. -/
def publish_player_turns_passed (player_id : Int) (count : Int) :
    Except PyErr Pub :=
  .ok ⟨Topics.player_topic Topics.PLAYER_TURNS_PASSED player_id,
    .vint count, 1, true⟩

/-- `publish_player_finish_roll` evaluates `Topics.PLAYER_FINISH_ROLL`,
but the `Topics` class defines no such attribute (`mqtt_client.py` lines
29-36 list the player topics; the finish-roll template is absent), so the
attribute lookup raises `AttributeError` before any publish happens. -/
def publish_player_finish_roll (_player_id : Int) (_value : Option Int) :
    Except PyErr Pub :=
  .error (.attributeError "PLAYER_FINISH_ROLL")

/-- `publish_player_breakout_rolls` evaluates
`Topics.PLAYER_BREAKOUT_ROLLS`, also undefined on the `Topics` class;
the lookup raises `AttributeError` before any publish happens. -/
def publish_player_breakout_rolls (_player_id : Int) (_rolls : List Int) :
    Except PyErr Pub :=
  .error (.attributeError "PLAYER_BREAKOUT_ROLLS")

/-- Run a sequence of publish calls the way straight-line Python does:
publishes accumulate until the first uncaught exception, which aborts the
rest. -/
def runCalls : List (Except PyErr Pub) → List Pub × Option PyErr
  | [] => ([], none)
  | .error e :: _ => ([], some e)
  | .ok p :: rest =>
    match runCalls rest with
    | (ps, e) => (p :: ps, e)

/-- `publish_all_initial_state`: match init, match-level fields, player 1
fields, player 2 fields, in source order. -/
def publish_all_initial_state (ms : MatchState) : List Pub × Option PyErr :=
  runCalls
    [publish_match_init ms,
     publish_match_title ms.title,
     publish_match_stipulations ms.stipulations,
     publish_crowd_meter ms.crowd_meter,
     publish_player_competitor 1 ms.player1.competitor_uuid,
     publish_player_hand_count 1 ms.player1.hand_count,
     publish_player_deck_count 1 ms.player1.deck_count,
     publish_player_turns_passed 1 ms.player1.turns_passed,
     publish_player_finish_roll 1 ms.player1.finish_roll,
     publish_player_breakout_rolls 1 ms.player1.breakout_rolls,
     publish_player_competitor 2 ms.player2.competitor_uuid,
     publish_player_hand_count 2 ms.player2.hand_count,
     publish_player_deck_count 2 ms.player2.deck_count,
     publish_player_turns_passed 2 ms.player2.turns_passed,
     publish_player_finish_roll 2 ms.player2.finish_roll,
     publish_player_breakout_rolls 2 ms.player2.breakout_rolls]

end MatchPublisher

-- ==================== controller (`controller/controller.py`) ====================

namespace MatchController

/-- The controller's mutable state: the authoritative `MatchState` and the
`match_started` flag. -/
structure CtrlState where
  match_state : MatchState
  match_started : Bool

/-- `_create_initial_state` as used by `__init__`: empty match, both
players at hand 0 / deck 30, match not started. -/
def initial : CtrlState :=
  { match_state :=
      { match_id := "", title := "", stipulations := "", crowd_meter := 0,
        started_at := none,
        player1 := { player_id := 1, deck_count := 30 },
        player2 := { player_id := 2, deck_count := 30 } },
    match_started := false }

/-- `_get_player`: player 1, player 2, or `ValueError` for any other id. -/
def get_player (ms : MatchState) (player_id : Int) :
    Except PyErr PlayerState :=
  if player_id = 1 then .ok ms.player1
  else if player_id = 2 then .ok ms.player2
  else .error (.valueError "Invalid player_id")

/-- Write back the player record `_get_player` aliased. -/
def set_player (ms : MatchState) (player_id : Int) (p : PlayerState) :
    MatchState :=
  if player_id = 1 then { ms with player1 := p } else { ms with player2 := p }

/-- The publishes performed by the tail of a mutation: none before the
match is started; otherwise the given call is executed, an `AttributeError`
from a missing topic constant escaping uncaught. -/
def emitIfStarted (s : CtrlState) (call : Except PyErr Pub) :
    List Pub × Option PyErr :=
  if s.match_started then
    match call with
    | .ok p => ([p], none)
    | .error e => ([], some e)
  else ([], none)

/-- As `emitIfStarted`, for the two consecutive publish calls of the
hand-count mutations. -/
def emit2IfStarted (s : CtrlState) (c1 c2 : Except PyErr Pub) :
    List Pub × Option PyErr :=
  if s.match_started then
    match c1 with
    | .error e => ([], some e)
    | .ok p1 =>
      match c2 with
      | .error e => ([p1], some e)
      | .ok p2 => ([p1, p2], none)
  else ([], none)

/-- `update_title`: store, publish when started. -/
def update_title (s : CtrlState) (title : String) :
    CtrlState × List Pub × Option PyErr :=
  ({ s with match_state := { s.match_state with title := title } },
   emitIfStarted s (MatchPublisher.publish_match_title title))

/-- `update_stipulations`. -/
def update_stipulations (s : CtrlState) (stipulations : String) :
    CtrlState × List Pub × Option PyErr :=
  ({ s with match_state :=
      { s.match_state with stipulations := stipulations } },
   emitIfStarted s (MatchPublisher.publish_match_stipulations stipulations))

/-- `update_crowd_meter`: clamp to `[0, 10]`, store, publish when
started. -/
def update_crowd_meter (s : CtrlState) (value : Int) :
    CtrlState × List Pub × Option PyErr :=
  let value := max 0 (min 10 value)
  ({ s with match_state := { s.match_state with crowd_meter := value } },
   emitIfStarted s (MatchPublisher.publish_crowd_meter value))

/-- `update_turn_roll`: clamp the value to `[1, 12]`, store the roll on
the player, publish when started. -/
def update_turn_roll (s : CtrlState) (player_id : Int)
    (roll_type : RollType) (value : Int) :
    CtrlState × List Pub × Option PyErr :=
  let value := max 1 (min 12 value)
  match get_player s.match_state player_id with
  | .error e => (s, [], some e)
  | .ok player =>
    let tr : TurnRoll := ⟨roll_type, .vint value⟩
    let player' := { player with last_turn_roll := some tr }
    let s' := { s with
      match_state := set_player s.match_state player_id player' }
    (s', emitIfStarted s (MatchPublisher.publish_player_turn_roll
      player_id tr))

/-- `increment_hand_count`: saturate the hand at 30, recompute
`deck_count = 30 - hand_count`, publish both counts when started. -/
def increment_hand_count (s : CtrlState) (player_id : Int) :
    CtrlState × List Pub × Option PyErr :=
  match get_player s.match_state player_id with
  | .error e => (s, [], some e)
  | .ok player =>
    let hand := min (player.hand_count + 1) 30
    let player' := { player with hand_count := hand, deck_count := 30 - hand }
    let s' := { s with
      match_state := set_player s.match_state player_id player' }
    (s', emit2IfStarted s
      (MatchPublisher.publish_player_hand_count player_id hand)
      (MatchPublisher.publish_player_deck_count player_id (30 - hand)))

/-- `decrement_hand_count`: saturate the hand at 0, recompute
`deck_count`, publish both counts when started. -/
def decrement_hand_count (s : CtrlState) (player_id : Int) :
    CtrlState × List Pub × Option PyErr :=
  match get_player s.match_state player_id with
  | .error e => (s, [], some e)
  | .ok player =>
    let hand := max (player.hand_count - 1) 0
    let player' := { player with hand_count := hand, deck_count := 30 - hand }
    let s' := { s with
      match_state := set_player s.match_state player_id player' }
    (s', emit2IfStarted s
      (MatchPublisher.publish_player_hand_count player_id hand)
      (MatchPublisher.publish_player_deck_count player_id (30 - hand)))

/-- `update_finish_roll`: clamp a non-`None` value to `[1, 12]`, store,
publish when started (the publish call raises `AttributeError`). -/
def update_finish_roll (s : CtrlState) (player_id : Int)
    (value : Option Int) : CtrlState × List Pub × Option PyErr :=
  match get_player s.match_state player_id with
  | .error e => (s, [], some e)
  | .ok player =>
    let value := match value with
      | some v => some (max 1 (min 12 v))
      | none => none
    let player' := { player with finish_roll := value }
    let s' := { s with
      match_state := set_player s.match_state player_id player' }
    (s', emitIfStarted s (MatchPublisher.publish_player_finish_roll
      player_id value))

/-- `add_breakout_roll`: clamp to `[1, 12]`, append to the player's list,
publish when started (the publish call raises `AttributeError`). -/
def add_breakout_roll (s : CtrlState) (player_id : Int) (value : Int) :
    CtrlState × List Pub × Option PyErr :=
  match get_player s.match_state player_id with
  | .error e => (s, [], some e)
  | .ok player =>
    let value := max 1 (min 12 value)
    let rolls := player.breakout_rolls ++ [value]
    let player' := { player with breakout_rolls := rolls }
    let s' := { s with
      match_state := set_player s.match_state player_id player' }
    (s', emitIfStarted s (MatchPublisher.publish_player_breakout_rolls
      player_id rolls))

/-- `clear_breakout_rolls`. -/
def clear_breakout_rolls (s : CtrlState) (player_id : Int) :
    CtrlState × List Pub × Option PyErr :=
  match get_player s.match_state player_id with
  | .error e => (s, [], some e)
  | .ok player =>
    let player' := { player with breakout_rolls := [] }
    let s' := { s with
      match_state := set_player s.match_state player_id player' }
    (s', emitIfStarted s (MatchPublisher.publish_player_breakout_rolls
      player_id []))

/-- `increment_turns_passed`. -/
def increment_turns_passed (s : CtrlState) (player_id : Int) :
    CtrlState × List Pub × Option PyErr :=
  match get_player s.match_state player_id with
  | .error e => (s, [], some e)
  | .ok player =>
    let n := player.turns_passed + 1
    let player' := { player with turns_passed := n }
    let s' := { s with
      match_state := set_player s.match_state player_id player' }
    (s', emitIfStarted s (MatchPublisher.publish_player_turns_passed
      player_id n))

end MatchController

-- ==================== subscriber (`production/subscriber.py`) ====================

/-- One handler invocation performed by the router: the callback name it
was looked up under and the arguments passed to it. -/
structure Call where
  name : String
  args : List Val

/-- The `self.callbacks` registry of a `ProductionSubscriber`: callback
name to handler.  A handler's behavior is abstract; `some e` models the
handler raising `e`. -/
def Callbacks := List (String × (List Val → Option PyErr))

/-- `self.callbacks.get(name)`. -/
def Callbacks.get (cbs : Callbacks) (name : String) :
    Option (List Val → Option PyErr) :=
  match List.find? (fun kv => kv.1 = name) cbs with
  | some kv => some kv.2
  | none => none

namespace ProductionSubscriber

/-- The `callback = self.callbacks.get(name); if callback: callback(...)`
pattern shared by all `_handle_*` helpers: no registered callback means no
call; a registered one is invoked and may raise. -/
def invoke (cbs : Callbacks) (name : String) (args : List Val) :
    List Call × Option PyErr :=
  match cbs.get name with
  | none => ([], none)
  | some h => ([⟨name, args⟩], h args)

/-- `ProductionSubscriber._on_message`: match-topic equality checks, then
player-topic parsing (split on `/`, `int(parts[2])`, field =
`'/'.join(parts[3:])`), then per-field dispatch.  The whole body runs
inside `try/except Exception`, so the second component is the exception
caught and logged there (`int()`'s `ValueError`, or whatever a handler
raises); `_on_message` itself never lets an exception propagate, and it
never mutates the callback registry. -/
def on_message (cbs : Callbacks) (topic : String) (payload : Val) :
    List Call × Option PyErr :=
  if topic = Topics.MATCH_INIT then invoke cbs "match_init" [payload]
  else if topic = Topics.MATCH_RESET then invoke cbs "match_reset" []
  else if topic = Topics.MATCH_TITLE then invoke cbs "match_title" [payload]
  else if topic = Topics.MATCH_STIPULATIONS then
    invoke cbs "match_stipulations" [payload]
  else if topic = Topics.MATCH_CROWD_METER then
    invoke cbs "crowd_meter" [payload]
  else if pyStartsWith topic "supershow/player/" then
    let parts := pySplit '/' topic
    if parts.length ≥ 4 then
      match pyInt (parts.getD 2 "") with
      | .error e => ([], some e)
      | .ok player_id =>
        let field := pyJoin "/" (parts.drop 3)
        if field = "competitor" then
          invoke cbs "player_competitor" [.vint player_id, payload]
        else if field = "hand_count" then
          invoke cbs "player_hand_count" [.vint player_id, payload]
        else if field = "deck_count" then
          invoke cbs "player_deck_count" [.vint player_id, payload]
        else if field = "turn_roll" then
          invoke cbs "player_turn_roll" [.vint player_id, payload]
        else if field = "turns_passed" then
          invoke cbs "player_turns_passed" [.vint player_id, payload]
        else if field = "finish_roll" then
          invoke cbs "player_finish_roll"
            [.vint player_id,
             if payload.isEmptyStr then .vnull else payload]
        else if field = "breakout_rolls" then
          invoke cbs "player_breakout_rolls" [.vint player_id, payload]
        else if field = "discard" then
          invoke cbs "player_discard" [.vint player_id, payload]
        else if field = "in_play" then
          invoke cbs "player_in_play" [.vint player_id, payload]
        else ([], none)
    else ([], none)
  else ([], none)

/-- Deliver a sequence of inbound messages through `_on_message`; the
registry is read-only state of the subscriber, so each message is handled
independently of the ones before it. -/
def processMessages (cbs : Callbacks) :
    List (String × Val) → List (List Call × Option PyErr)
  | [] => []
  | m :: rest => on_message cbs m.1 m.2 :: processMessages cbs rest

end ProductionSubscriber

-- ==================== replica (`production/state_manager.py`) ====================

namespace ProductionStateManager

/-- The replica `MatchState` built by `__init__`. -/
def initialReplica : MatchState :=
  { match_id := "", title := "", stipulations := "", crowd_meter := 0,
    started_at := none }

/-- `_get_player`: `player1 if player_id == 1 else player2` — every id
other than 1 selects player 2. -/
def get_player (ms : MatchState) (player_id : Int) : PlayerState :=
  if player_id = 1 then ms.player1 else ms.player2

/-- Write back through the alias `_get_player` returned. -/
def set_player (ms : MatchState) (player_id : Int) (p : PlayerState) :
    MatchState :=
  if player_id = 1 then { ms with player1 := p } else { ms with player2 := p }

/-- `update_player_hand_count`: store the count on the selected player and
emit one `player_hand_count` UI notification. -/
def update_player_hand_count (ms : MatchState) (player_id : Int)
    (count : Int) : MatchState × List String :=
  let player := get_player ms player_id
  (set_player ms player_id { player with hand_count := count },
   ["player_hand_count"])

/-- `update_player_deck_count`. -/
def update_player_deck_count (ms : MatchState) (player_id : Int)
    (count : Int) : MatchState × List String :=
  let player := get_player ms player_id
  (set_player ms player_id { player with deck_count := count },
   ["player_deck_count"])

/-- `update_player_turn_roll`: parse `roll_data["roll_type"]` through the
`RollType` enum constructor; on `ValueError` (unknown or non-string value)
log a warning and substitute `RollType.POWER`; store the roll and emit one
`player_turn_roll` notification.  The update is applied in every case. -/
def update_player_turn_roll (ms : MatchState) (player_id : Int)
    (roll_data : Val) : MatchState × List String :=
  let player := get_player ms player_id
  let roll_type : RollType :=
    match roll_data.dictGet "roll_type" (.vstr "") with
    | .vstr s =>
      match RollType.fromValue s with
      | some rt => rt
      | none => RollType.POWER
    | _ => RollType.POWER
  let value := roll_data.dictGet "value" (.vint 1)
  (set_player ms player_id
    { player with last_turn_roll := some ⟨roll_type, value⟩ },
   ["player_turn_roll"])

/-- `update_player_turns_passed`. -/
def update_player_turns_passed (ms : MatchState) (player_id : Int)
    (count : Int) : MatchState × List String :=
  let player := get_player ms player_id
  (set_player ms player_id { player with turns_passed := count },
   ["player_turns_passed"])

/-- `update_player_finish_roll`. -/
def update_player_finish_roll (ms : MatchState) (player_id : Int)
    (value : Option Int) : MatchState × List String :=
  let player := get_player ms player_id
  (set_player ms player_id { player with finish_roll := value },
   ["player_finish_roll"])

/-- `update_player_breakout_rolls`. -/
def update_player_breakout_rolls (ms : MatchState) (player_id : Int)
    (rolls : List Int) : MatchState × List String :=
  let player := get_player ms player_id
  (set_player ms player_id { player with breakout_rolls := rolls },
   ["player_breakout_rolls"])

end ProductionStateManager

-- ==================== topic-string lemmas ====================

theorem digitsToNat_append (xs ys : List Char) : ∀ acc : Nat,
    digitsToNat (xs ++ ys) acc = digitsToNat ys (digitsToNat xs acc) := by
  induction xs with
  | nil => intro acc; rfl
  | cons c rest ih => intro acc; simp [digitsToNat, ih]

theorem digitsToNat_natChars_aux (k : Nat) : ∀ acc : Nat,
    digitsToNat (natChars k) acc = acc * 10 ^ (natChars k).length + k := by
  induction k using Nat.strong_induction_on with
  | _ k ih =>
    intro acc
    by_cases h : k < 10
    · rw [natChars_small h]
      simp only [digitsToNat, List.length_cons, List.length_nil]
      rw [pyDigitChar_toNat h]
      have h1 : 48 + k - 48 = k := by omega
      rw [h1, pow_succ, pow_zero]
      ring
    · rw [natChars_unfold h, digitsToNat_append]
      rw [ih (k / 10) (by omega) acc]
      have h10 : k % 10 < 10 := by omega
      simp only [digitsToNat]
      rw [pyDigitChar_toNat h10]
      have h48 : 48 + k % 10 - 48 = k % 10 := by omega
      have hl : (natChars (k / 10) ++ [pyDigitChar (k % 10)]).length
          = (natChars (k / 10)).length + 1 := by simp
      have hdm : k / 10 * 10 + k % 10 = k := by omega
      calc (acc * 10 ^ (natChars (k / 10)).length + k / 10) * 10
            + (48 + k % 10 - 48)
          = acc * (10 ^ (natChars (k / 10)).length * 10)
            + (k / 10 * 10 + k % 10) := by rw [h48]; ring
        _ = acc * 10 ^ ((natChars (k / 10)).length + 1) + k := by
            rw [pow_succ, hdm]
        _ = acc * 10 ^ (natChars (k / 10) ++ [pyDigitChar (k % 10)]).length
            + k := by rw [hl]

theorem digitsToNat_natChars (m : Nat) : digitsToNat (natChars m) 0 = m := by
  have := digitsToNat_natChars_aux m 0
  simpa using this

theorem dropWhile_notspace {l : List Char}
    (h : ∀ c ∈ l, pyIsSpace c = false) : l.dropWhile pyIsSpace = l := by
  cases l with
  | nil => rfl
  | cons c rest => simp [List.dropWhile, h c (by simp)]

/-- `str(n)` contains no whitespace. -/
theorem intChars_notspace (n : Int) :
    ∀ c ∈ intChars n, pyIsSpace c = false := by
  intro c hc
  unfold intChars at hc
  by_cases hneg : n < 0
  · rw [if_pos hneg] at hc
    rcases List.mem_cons.mp hc with hc | hc
    · subst hc; rfl
    · exact (digit_facts ((natChars_digits n.natAbs).2 c hc)).1
  · rw [if_neg hneg] at hc
    exact (digit_facts ((natChars_digits n.toNat).2 c hc)).1

/-- `int(str(n)) == n`: Python round-trips its own integer rendering. -/
theorem pyInt_intChars (n : Int) : pyInt (String.mk (intChars n)) = .ok n := by
  have hcore : pyIntCore (String.mk (intChars n)) = intChars n := by
    unfold pyIntCore
    rw [show (String.mk (intChars n)).data = intChars n from rfl]
    rw [dropWhile_notspace (intChars_notspace n)]
    rw [dropWhile_notspace (fun c hc =>
      intChars_notspace n c (List.mem_reverse.mp hc))]
    exact List.reverse_reverse _
  by_cases hneg : n < 0
  · have hsig : pyIntSigned (pyIntCore (String.mk (intChars n)))
        = (true, natChars n.natAbs) := by
      rw [hcore, show intChars n = '-' :: natChars n.natAbs from by
        simp [intChars, hneg]]
      simp [pyIntSigned]
    unfold pyInt
    rw [hsig]
    dsimp only
    rw [if_pos ⟨(natChars_digits n.natAbs).1, by
      rw [List.all_eq_true]
      intro c hc
      exact (natChars_digits n.natAbs).2 c hc⟩]
    rw [if_pos rfl, digitsToNat_natChars]
    congr 1
    omega
  · obtain ⟨hne, hdig⟩ := natChars_digits n.toNat
    obtain ⟨c, cs, hc⟩ := List.exists_cons_of_ne_nil hne
    have hcd := hdig c (by rw [hc]; simp)
    simp only [pyIsDigit, Bool.and_eq_true, decide_eq_true_eq] at hcd
    have hcm : c ≠ '-' := char_ne_of_toNat (by
      have h45 : ('-' : Char).toNat = 45 := rfl
      omega)
    have hcp : c ≠ '+' := char_ne_of_toNat (by
      have h43 : ('+' : Char).toNat = 43 := rfl
      omega)
    have hsig : pyIntSigned (pyIntCore (String.mk (intChars n)))
        = (false, natChars n.toNat) := by
      rw [hcore, show intChars n = natChars n.toNat from by
        simp [intChars, hneg], hc]
      simp [pyIntSigned, hcm, hcp]
    unfold pyInt
    rw [hsig]
    dsimp only
    rw [if_pos ⟨hne, by
      rw [List.all_eq_true]
      intro d hd
      exact hdig d hd⟩]
    rw [if_neg (by simp : ¬ (false = true)), digitsToNat_natChars]
    congr 1
    omega

-- ==================== topic-split lemmas ====================

/-- `split` with no separator in the input yields a single piece. -/
theorem pySplitAux_nosep (sep : Char) :
    ∀ (cs acc : List Char), (∀ c ∈ cs, c ≠ sep) →
    pySplitAux sep cs acc = [acc.reverse ++ cs] := by
  intro cs
  induction cs with
  | nil => intro acc _; simp [pySplitAux]
  | cons c cs ih =>
    intro acc h
    have hc : c ≠ sep := h c (by simp)
    simp only [pySplitAux, if_neg hc]
    rw [ih (c :: acc) (fun d hd => h d (by simp [hd]))]
    simp

/-- Peeling the piece before the first separator off a `split`. -/
theorem pySplitAux_sep (sep : Char) :
    ∀ (pre rest acc : List Char), (∀ c ∈ pre, c ≠ sep) →
    pySplitAux sep (pre ++ sep :: rest) acc
      = (acc.reverse ++ pre) :: pySplitAux sep rest [] := by
  intro pre
  induction pre with
  | nil => intro rest acc _; simp [pySplitAux]
  | cons c pre ih =>
    intro rest acc h
    have hc : c ≠ sep := h c (by simp)
    simp only [List.cons_append, pySplitAux, if_neg hc]
    show pySplitAux sep (pre ++ sep :: rest) (c :: acc)
      = (acc.reverse ++ c :: pre) :: pySplitAux sep rest []
    rw [ih rest (c :: acc) (fun d hd => h d (by simp [hd]))]
    simp

/-- Splitting a per-player topic on `/` yields exactly the four expected
parts, provided the rendered id and the field contain no slash. -/
theorem pySplit_player (pid fld : List Char)
    (hp : ∀ c ∈ pid, c ≠ '/') (hf : ∀ c ∈ fld, c ≠ '/') :
    pySplit '/' (String.mk ("supershow/player/".data ++ (pid ++ '/' :: fld)))
      = ["supershow", "player", String.mk pid, String.mk fld] := by
  unfold pySplit pySplitChars
  have e1 : (String.mk ("supershow/player/".data ++ (pid ++ '/' :: fld))).data
      = "supershow".data
        ++ '/' :: ("player".data ++ '/' :: (pid ++ '/' :: fld)) := rfl
  rw [e1]
  rw [pySplitAux_sep '/' "supershow".data _ [] (by decide)]
  rw [pySplitAux_sep '/' "player".data _ [] (by decide)]
  rw [pySplitAux_sep '/' pid fld [] hp]
  rw [pySplitAux_nosep '/' fld [] hf]
  simp

/-- `str(n)` never contains a slash (its characters are digits or `-`). -/
theorem intChars_no_slash (n : Int) : ∀ c ∈ intChars n, c ≠ '/' := by
  intro c hc
  have hd : c = '-' ∨ pyIsDigit c = true := by
    unfold intChars at hc
    by_cases h : n < 0
    · rw [if_pos h] at hc
      rcases List.mem_cons.mp hc with h1 | h1
      · exact Or.inl h1
      · exact Or.inr ((natChars_digits n.natAbs).2 c h1)
    · rw [if_neg h] at hc
      exact Or.inr ((natChars_digits n.toNat).2 c hc)
  rcases hd with h1 | h1
  · subst h1; decide
  · simp only [pyIsDigit, Bool.and_eq_true, decide_eq_true_eq] at h1
    exact char_ne_of_toNat (by
      have h47 : ('/' : Char).toNat = 47 := by decide
      omega)

/-- Two strings are distinct when their first eleven characters differ;
used to separate player topics from the five match topics. -/
theorem mk_append_ne {pre rest : List Char} {t : String}
    (hlen : 11 ≤ pre.length) (h : pre.take 11 ≠ t.data.take 11) :
    String.mk (pre ++ rest) ≠ t := by
  intro he
  apply h
  have hd := congrArg (fun s => List.take 11 s.data) he
  simpa [List.take_append_of_le_length hlen] using hd

/-- Every string extending the per-player prefix starts with it. -/
theorem startsWith_player (rest : List Char) :
    pyStartsWith (String.mk ("supershow/player/".data ++ rest))
      "supershow/player/" = true := by
  unfold pyStartsWith
  rw [List.isPrefixOf_iff_prefix]
  exact List.prefix_append _ _

/-- `'/'.join` of a single part is that part. -/
theorem pyJoin_single (sep : String) (s : String) : pyJoin sep [s] = s := by
  unfold pyJoin
  simp [List.intercalate]

/-- The rendered hand-count player topic, in prefix/id/field split form. -/
theorem player_topic_hand_count (pid : Int) :
    Topics.player_topic Topics.PLAYER_HAND_COUNT pid
      = String.mk ("supershow/player/".data
          ++ (intChars pid ++ '/' :: "hand_count".data)) := rfl

/-- `_on_message` on a well-formed per-player topic: the five match-topic
comparisons fail, the topic splits into its four parts, `int()` recovers
the player id, and the router reduces to the field dispatch. -/
theorem on_message_player (cbs : Callbacks) (payload : Val) (pid : Int)
    (fld : List Char) (hf : ∀ c ∈ fld, c ≠ '/') :
    ProductionSubscriber.on_message cbs
      (String.mk ("supershow/player/".data ++ (intChars pid ++ '/' :: fld)))
      payload
      = (if String.mk fld = "competitor" then
           ProductionSubscriber.invoke cbs "player_competitor"
             [.vint pid, payload]
         else if String.mk fld = "hand_count" then
           ProductionSubscriber.invoke cbs "player_hand_count"
             [.vint pid, payload]
         else if String.mk fld = "deck_count" then
           ProductionSubscriber.invoke cbs "player_deck_count"
             [.vint pid, payload]
         else if String.mk fld = "turn_roll" then
           ProductionSubscriber.invoke cbs "player_turn_roll"
             [.vint pid, payload]
         else if String.mk fld = "turns_passed" then
           ProductionSubscriber.invoke cbs "player_turns_passed"
             [.vint pid, payload]
         else if String.mk fld = "finish_roll" then
           ProductionSubscriber.invoke cbs "player_finish_roll"
             [.vint pid, if payload.isEmptyStr then .vnull else payload]
         else if String.mk fld = "breakout_rolls" then
           ProductionSubscriber.invoke cbs "player_breakout_rolls"
             [.vint pid, payload]
         else if String.mk fld = "discard" then
           ProductionSubscriber.invoke cbs "player_discard"
             [.vint pid, payload]
         else if String.mk fld = "in_play" then
           ProductionSubscriber.invoke cbs "player_in_play"
             [.vint pid, payload]
         else ([], none)) := by
  simp only [ProductionSubscriber.on_message]
  rw [if_neg (mk_append_ne (by decide) (by decide))]
  rw [if_neg (mk_append_ne (by decide) (by decide))]
  rw [if_neg (mk_append_ne (by decide) (by decide))]
  rw [if_neg (mk_append_ne (by decide) (by decide))]
  rw [if_neg (mk_append_ne (by decide) (by decide))]
  rw [if_pos (startsWith_player _)]
  rw [pySplit_player (intChars pid) fld (intChars_no_slash pid) hf]
  rw [if_pos (by simp :
    (["supershow", "player", String.mk (intChars pid),
      String.mk fld] : List String).length ≥ 4)]
  rw [show List.getD
      ["supershow", "player", String.mk (intChars pid), String.mk fld] 2 ""
      = String.mk (intChars pid) from rfl]
  rw [pyInt_intChars pid]
  rw [show List.drop 3
      ["supershow", "player", String.mk (intChars pid), String.mk fld]
      = [String.mk fld] from rfl]
  rw [pyJoin_single]

-- ==================== shared sample states ====================

/-- A match state with concrete content in every field the snapshot
publishes, used as a common concrete input. -/
def sampleMatch : MatchState :=
  { match_id := "m1", title := "Main Event", stipulations := "Cage",
    crowd_meter := 5, started_at := some 100,
    player1 := { player_id := 1, hand_count := 3, deck_count := 27 },
    player2 := { player_id := 2 } }

/-- Controller state mid-match: `sampleMatch` with `match_started` set. -/
def sampleStarted : MatchController.CtrlState :=
  { match_state := sampleMatch, match_started := true }

/-- A registry holding a single never-raising hand-count handler. -/
def handCb : Callbacks := [("player_hand_count", fun _ => none)]

-- ==================== C1 ====================

/-- C1 (code bug).  The claimed build/parse round trip fails on valid
triples in both directions: the builder side has no topic for the
finish-roll and breakout-rolls fields (the `Topics` class defines no
`PLAYER_FINISH_ROLL` or `PLAYER_BREAKOUT_ROLLS` constant, so the
publisher's attribute lookups raise `AttributeError` and no topic string
is ever produced), and the buildable turns-won topic is parsed by the
subscriber to no triple at all (its field dispatch has no `turns_won`
branch, so no handler is invoked for any registry and any payload). -/
theorem C1_topic_roundtrip_fails :
    (MatchPublisher.publish_player_finish_roll 1 (some 7)
       = .error (.attributeError "PLAYER_FINISH_ROLL"))
    ∧ (MatchPublisher.publish_player_breakout_rolls 2 [7]
       = .error (.attributeError "PLAYER_BREAKOUT_ROLLS"))
    ∧ (∀ (cbs : Callbacks) (payload : Val),
        ProductionSubscriber.on_message cbs
          (Topics.player_topic Topics.PLAYER_TURNS_WON 1) payload
          = ([], none)) := by
  refine ⟨rfl, rfl, fun cbs payload => ?_⟩
  rfl

-- ==================== C2 ====================

/-- C2 counterexample at `sampleMatch`: the snapshot emits only eight
records — init, title, stipulations, crowd meter and four of player 1's
fields — then dies with `AttributeError` on the finish-roll topic lookup,
so neither "all seven of player 1's fields" nor any of player 2's are
published, refuting the claimed order. -/
theorem C2_counterexample :
    (MatchPublisher.publish_all_initial_state sampleMatch).1.length = 8
    ∧ (MatchPublisher.publish_all_initial_state sampleMatch).2
        = some (.attributeError "PLAYER_FINISH_ROLL") := ⟨rfl, rfl⟩

/-- C2 (amended): for every match state, `publish_all_initial_state`
publishes, in order, the match-init record, title, stipulations, crowd
meter, then player 1's competitor, hand count, deck count and turns
passed, and then raises `AttributeError` looking up the finish-roll topic,
so player 1's remaining fields and all of player 2's fields are never
published. -/
theorem C2_snapshot_order (ms : MatchState) :
    MatchPublisher.publish_all_initial_state ms
      = ([⟨Topics.MATCH_INIT, MatchPublisher.initPayload ms, 1, true⟩,
          ⟨Topics.MATCH_TITLE, .vstr ms.title, 1, true⟩,
          ⟨Topics.MATCH_STIPULATIONS, .vstr ms.stipulations, 1, true⟩,
          ⟨Topics.MATCH_CROWD_METER, .vint ms.crowd_meter, 1, true⟩,
          ⟨Topics.player_topic Topics.PLAYER_COMPETITOR 1,
           .vstr (match ms.player1.competitor_uuid with
                  | some u => u | none => ""), 1, true⟩,
          ⟨Topics.player_topic Topics.PLAYER_HAND_COUNT 1,
           .vint ms.player1.hand_count, 1, true⟩,
          ⟨Topics.player_topic Topics.PLAYER_DECK_COUNT 1,
           .vint ms.player1.deck_count, 1, true⟩,
          ⟨Topics.player_topic Topics.PLAYER_TURNS_PASSED 1,
           .vint ms.player1.turns_passed, 1, true⟩],
         some (.attributeError "PLAYER_FINISH_ROLL")) := rfl

-- ==================== C3 ====================

/-- C3 (confirmed): a successful `_on_connect` resets the reconnect delay
to the configured minimum, and from there the sleep performed before the
(i+1)-th consecutive unclean disconnect is
`min (base * 2 ^ i) max_backoff` — doubling from the minimum, capped at
the maximum. -/
theorem C3_backoff (cfg : BackoffCfg) (s : ConnState) (rcs : List Int)
    (hle : cfg.reconnect_delay_min ≤ cfg.reconnect_delay_max)
    (hmax : 0 ≤ cfg.reconnect_delay_max)
    (hrc : ∀ rc ∈ rcs, rc ≠ 0) :
    (MQTTClient.on_connect cfg s 0).reconnect_delay
        = cfg.reconnect_delay_min
    ∧ (MQTTClient.runDisconnects cfg (MQTTClient.on_connect cfg s 0) rcs).2
        = (List.range rcs.length).map
            (fun i => min (cfg.reconnect_delay_min * 2 ^ i)
              cfg.reconnect_delay_max) := by
  have h0 : MQTTClient.on_connect cfg s 0
      = { connected := true,
          reconnect_delay := cfg.reconnect_delay_min } := by
    simp [MQTTClient.on_connect]
  constructor
  · rw [h0]
  · rw [h0]
    have hd : cfg.reconnect_delay_min
        = min (cfg.reconnect_delay_min * 2 ^ 0) cfg.reconnect_delay_max := by
      simp [hle]
    nth_rewrite 1 [hd]
    rw [runDisconnects_sleeps cfg hmax rcs true 0 hrc]
    simp

/-- C3 witness at the default configuration (1s/60s) and seven straight
unclean disconnects: the slept delays are 1, 2, 4, 8, 16, 32 and then the
capped 60. -/
theorem C3_backoff_witness :
    ((1 : Int) ≤ 60 ∧ (0 : Int) ≤ 60
      ∧ (∀ rc ∈ ([1, 1, 1, 1, 1, 1, 1] : List Int), rc ≠ 0))
    ∧ (MQTTClient.runDisconnects ⟨1, 60⟩
        (MQTTClient.on_connect ⟨1, 60⟩ (MQTTClient.initState ⟨1, 60⟩) 0)
        [1, 1, 1, 1, 1, 1, 1]).2 = [1, 2, 4, 8, 16, 32, 60] := by
  refine ⟨⟨by decide, by decide, by decide⟩, ?_⟩
  rw [(C3_backoff ⟨1, 60⟩ (MQTTClient.initState ⟨1, 60⟩)
    [1, 1, 1, 1, 1, 1, 1] (by decide) (by decide) (by decide)).2]
  decide

-- ==================== C4 ====================

/-- A hand-count mutation request: which operation, on which player id. -/
inductive HandOp where
  | inc (pid : Int)
  | dec (pid : Int)

/-- Dispatch one hand-count operation to the controller. -/
def applyHandOp (s : MatchController.CtrlState) :
    HandOp → MatchController.CtrlState × List Pub × Option PyErr
  | .inc pid => MatchController.increment_hand_count s pid
  | .dec pid => MatchController.decrement_hand_count s pid

/-- Run a sequence of hand-count operations, threading the controller
state and collecting every publish along the way. -/
def runHandOps (s : MatchController.CtrlState) :
    List HandOp → MatchController.CtrlState × List Pub
  | [] => (s, [])
  | op :: rest =>
    let r := applyHandOp s op
    let r2 := runHandOps r.1 rest
    (r2.1, r.2.1 ++ r2.2)

/-- The claim's hand/deck invariant, for both players: the stored hand
count lies in `[0, 30]` and the stored deck count is `30 - hand_count`. -/
def HandInv (s : MatchController.CtrlState) : Prop :=
  (0 ≤ s.match_state.player1.hand_count
    ∧ s.match_state.player1.hand_count ≤ 30
    ∧ s.match_state.player1.deck_count
        = 30 - s.match_state.player1.hand_count)
  ∧ (0 ≤ s.match_state.player2.hand_count
    ∧ s.match_state.player2.hand_count ≤ 30
    ∧ s.match_state.player2.deck_count
        = 30 - s.match_state.player2.hand_count)

/-- What one hand-count operation publishes: nothing (match not started,
or invalid player id), or exactly the hand-count and deck-count records of
the mutated player's new stored state, the published deck count equal to
30 minus the published hand count. -/
def HandPubs (s : MatchController.CtrlState) (op : HandOp) : Prop :=
  (applyHandOp s op).2.1 = []
  ∨ ∃ (pid : Int) (p : PlayerState),
      MatchController.get_player (applyHandOp s op).1.match_state pid
        = .ok p
      ∧ 0 ≤ p.hand_count ∧ p.hand_count ≤ 30
      ∧ p.deck_count = 30 - p.hand_count
      ∧ (applyHandOp s op).2.1
        = [⟨Topics.player_topic Topics.PLAYER_HAND_COUNT pid,
            .vint p.hand_count, 1, true⟩,
           ⟨Topics.player_topic Topics.PLAYER_DECK_COUNT pid,
            .vint p.deck_count, 1, true⟩]

theorem get_player_one (ms : MatchState) :
    MatchController.get_player ms 1 = .ok ms.player1 := by
  simp [MatchController.get_player]

theorem get_player_two (ms : MatchState) :
    MatchController.get_player ms 2 = .ok ms.player2 := by
  simp [MatchController.get_player]

theorem get_player_other (ms : MatchState) (pid : Int) (h1 : pid ≠ 1)
    (h2 : pid ≠ 2) :
    MatchController.get_player ms pid
      = .error (.valueError "Invalid player_id") := by
  simp [MatchController.get_player, h1, h2]

/-- The two publishes of a hand mutation, as a function of the started
flag. -/
theorem hand_emit (s : MatchController.CtrlState) (pid hand : Int) :
    MatchController.emit2IfStarted s
      (MatchPublisher.publish_player_hand_count pid hand)
      (MatchPublisher.publish_player_deck_count pid (30 - hand))
      = (if s.match_started then
          [⟨Topics.player_topic Topics.PLAYER_HAND_COUNT pid,
            .vint hand, 1, true⟩,
           ⟨Topics.player_topic Topics.PLAYER_DECK_COUNT pid,
            .vint (30 - hand), 1, true⟩]
         else [], none) := by
  by_cases hs : s.match_started <;>
    simp [MatchController.emit2IfStarted, hs,
      MatchPublisher.publish_player_hand_count,
      MatchPublisher.publish_player_deck_count]

/-- One hand-count operation preserves the invariant and publishes per
`HandPubs`. -/
theorem hand_step (s : MatchController.CtrlState) (op : HandOp)
    (h : HandInv s) : HandInv (applyHandOp s op).1 ∧ HandPubs s op := by
  obtain ⟨⟨h10, h11, h1d⟩, h20, h21, h2d⟩ := h
  cases op with
  | inc pid =>
    by_cases e1 : pid = 1
    · subst e1
      have hrun : applyHandOp s (.inc 1)
          = ({ s with match_state := { s.match_state with player1 :=
                { s.match_state.player1 with
                  hand_count := min (s.match_state.player1.hand_count + 1) 30,
                  deck_count :=
                    30 - min (s.match_state.player1.hand_count + 1) 30 } } },
             MatchController.emit2IfStarted s
               (MatchPublisher.publish_player_hand_count 1
                 (min (s.match_state.player1.hand_count + 1) 30))
               (MatchPublisher.publish_player_deck_count 1
                 (30 - min (s.match_state.player1.hand_count + 1) 30))) := rfl
      constructor
      · rw [hrun]
        unfold HandInv
        dsimp only
        exact ⟨⟨by omega, by omega, rfl⟩, h20, h21, h2d⟩
      · unfold HandPubs
        rw [hrun, hand_emit]
        by_cases hs : s.match_started
        · rw [if_pos hs]
          exact Or.inr ⟨1, _, get_player_one _, by dsimp only; omega,
            by dsimp only; omega, rfl, rfl⟩
        · rw [if_neg hs]
          exact Or.inl rfl
    · by_cases e2 : pid = 2
      · subst e2
        have hrun : applyHandOp s (.inc 2)
            = ({ s with match_state := { s.match_state with player2 :=
                  { s.match_state.player2 with
                    hand_count :=
                      min (s.match_state.player2.hand_count + 1) 30,
                    deck_count :=
                      30 - min (s.match_state.player2.hand_count + 1) 30 } } },
               MatchController.emit2IfStarted s
                 (MatchPublisher.publish_player_hand_count 2
                   (min (s.match_state.player2.hand_count + 1) 30))
                 (MatchPublisher.publish_player_deck_count 2
                   (30 - min (s.match_state.player2.hand_count + 1) 30))) :=
          rfl
        constructor
        · rw [hrun]
          unfold HandInv
          dsimp only
          exact ⟨⟨h10, h11, h1d⟩, by omega, by omega, rfl⟩
        · unfold HandPubs
          rw [hrun, hand_emit]
          by_cases hs : s.match_started
          · rw [if_pos hs]
            exact Or.inr ⟨2, _, get_player_two _, by dsimp only; omega,
              by dsimp only; omega, rfl, rfl⟩
          · rw [if_neg hs]
            exact Or.inl rfl
      · have hrun : applyHandOp s (.inc pid)
            = (s, [], some (.valueError "Invalid player_id")) := by
          simp only [applyHandOp, MatchController.increment_hand_count,
            get_player_other s.match_state pid e1 e2]
        constructor
        · rw [hrun]
          exact ⟨⟨h10, h11, h1d⟩, h20, h21, h2d⟩
        · unfold HandPubs
          rw [hrun]
          exact Or.inl rfl
  | dec pid =>
    by_cases e1 : pid = 1
    · subst e1
      have hrun : applyHandOp s (.dec 1)
          = ({ s with match_state := { s.match_state with player1 :=
                { s.match_state.player1 with
                  hand_count := max (s.match_state.player1.hand_count - 1) 0,
                  deck_count :=
                    30 - max (s.match_state.player1.hand_count - 1) 0 } } },
             MatchController.emit2IfStarted s
               (MatchPublisher.publish_player_hand_count 1
                 (max (s.match_state.player1.hand_count - 1) 0))
               (MatchPublisher.publish_player_deck_count 1
                 (30 - max (s.match_state.player1.hand_count - 1) 0))) := rfl
      constructor
      · rw [hrun]
        unfold HandInv
        dsimp only
        exact ⟨⟨by omega, by omega, rfl⟩, h20, h21, h2d⟩
      · unfold HandPubs
        rw [hrun, hand_emit]
        by_cases hs : s.match_started
        · rw [if_pos hs]
          exact Or.inr ⟨1, _, get_player_one _, by dsimp only; omega,
            by dsimp only; omega, rfl, rfl⟩
        · rw [if_neg hs]
          exact Or.inl rfl
    · by_cases e2 : pid = 2
      · subst e2
        have hrun : applyHandOp s (.dec 2)
            = ({ s with match_state := { s.match_state with player2 :=
                  { s.match_state.player2 with
                    hand_count :=
                      max (s.match_state.player2.hand_count - 1) 0,
                    deck_count :=
                      30 - max (s.match_state.player2.hand_count - 1) 0 } } },
               MatchController.emit2IfStarted s
                 (MatchPublisher.publish_player_hand_count 2
                   (max (s.match_state.player2.hand_count - 1) 0))
                 (MatchPublisher.publish_player_deck_count 2
                   (30 - max (s.match_state.player2.hand_count - 1) 0))) :=
          rfl
        constructor
        · rw [hrun]
          unfold HandInv
          dsimp only
          exact ⟨⟨h10, h11, h1d⟩, by omega, by omega, rfl⟩
        · unfold HandPubs
          rw [hrun, hand_emit]
          by_cases hs : s.match_started
          · rw [if_pos hs]
            exact Or.inr ⟨2, _, get_player_two _, by dsimp only; omega,
              by dsimp only; omega, rfl, rfl⟩
          · rw [if_neg hs]
            exact Or.inl rfl
      · have hrun : applyHandOp s (.dec pid)
            = (s, [], some (.valueError "Invalid player_id")) := by
          simp only [applyHandOp, MatchController.decrement_hand_count,
            get_player_other s.match_state pid e1 e2]
        constructor
        · rw [hrun]
          exact ⟨⟨h10, h11, h1d⟩, h20, h21, h2d⟩
        · unfold HandPubs
          rw [hrun]
          exact Or.inl rfl

/-- C4 (confirmed): the controller's initial state satisfies the
hand/deck invariant; any sequence of increment/decrement hand-count
operations on either player preserves it (hand in `[0, 30]`, stored deck
always `30 - hand`); and whatever operation comes next publishes either
nothing or exactly the new hand count together with a deck count equal to
30 minus it. -/
theorem C4_hand_deck (s0 : MatchController.CtrlState) (ops : List HandOp)
    (h : HandInv s0) :
    HandInv MatchController.initial
    ∧ HandInv (runHandOps s0 ops).1
    ∧ ∀ op, HandPubs (runHandOps s0 ops).1 op := by
  have hrun : ∀ (l : List HandOp) (s : MatchController.CtrlState),
      HandInv s → HandInv (runHandOps s l).1 := by
    intro l
    induction l with
    | nil => intro s hs; exact hs
    | cons op rest ih =>
      intro s hs
      exact ih (applyHandOp s op).1 ((hand_step s op hs).1)
  exact ⟨by unfold HandInv; decide, hrun ops s0 h,
    fun op => (hand_step _ op (hrun ops s0 h)).2⟩

/-- C4 witness: from the started sample state (hand 3 / deck 27 and
hand 0 / deck 30), two increments on player 1 and a decrement on player 2
keep the invariant, and a further increment publishes per `HandPubs`. -/
theorem C4_hand_deck_witness :
    HandInv sampleStarted
    ∧ HandInv (runHandOps sampleStarted [.inc 1, .inc 1, .dec 2]).1
    ∧ HandPubs (runHandOps sampleStarted [.inc 1, .inc 1, .dec 2]).1
        (.inc 1) :=
  ⟨by unfold HandInv; decide,
   (C4_hand_deck sampleStarted [.inc 1, .inc 1, .dec 2]
     (by unfold HandInv; decide)).2.1,
   (C4_hand_deck sampleStarted [.inc 1, .inc 1, .dec 2]
     (by unfold HandInv; decide)).2.2 (.inc 1)⟩

-- ==================== C5 ====================

/-- C5 (code bug): every roll mutation stores the clamped value
`max 1 (min 12 v)` — the breakout scenario [11, 13, 0] stores
[11, 12, 1] append-only — and a started turn-roll mutation publishes the
clamped value; but the claim's "and published" half is impossible for the
finish-roll and breakout-roll mutations: their publish calls look up
`Topics.PLAYER_FINISH_ROLL` / `Topics.PLAYER_BREAKOUT_ROLLS`, which the
`Topics` class does not define, so once the match is started they raise
`AttributeError` and publish nothing. -/
theorem C5_roll_clamp (s : MatchController.CtrlState) (rt : RollType)
    (v : Int) (hs : s.match_started = true) :
    ((MatchController.update_turn_roll s 1 rt v).1.match_state.player1.last_turn_roll
       = some ⟨rt, .vint (max 1 (min 12 v))⟩)
    ∧ ((MatchController.update_turn_roll s 1 rt v).2.1
       = [⟨Topics.player_topic Topics.PLAYER_TURN_ROLL 1,
           .vdict [("roll_type", .vstr rt.value),
                   ("value", .vint (max 1 (min 12 v)))], 1, true⟩])
    ∧ ((MatchController.update_finish_roll s 1 (some v)).1.match_state.player1.finish_roll
       = some (max 1 (min 12 v)))
    ∧ ((MatchController.add_breakout_roll s 1 v).1.match_state.player1.breakout_rolls
       = s.match_state.player1.breakout_rolls ++ [max 1 (min 12 v)])
    ∧ ((MatchController.update_finish_roll s 1 (some v)).2
       = ([], some (.attributeError "PLAYER_FINISH_ROLL")))
    ∧ ((MatchController.add_breakout_roll s 1 v).2
       = ([], some (.attributeError "PLAYER_BREAKOUT_ROLLS")))
    ∧ ((MatchController.add_breakout_roll
          ((MatchController.add_breakout_roll
            ((MatchController.add_breakout_roll
              MatchController.initial 1 11).1) 1 13).1) 1
          0).1.match_state.player1.breakout_rolls = [11, 12, 1]) := by
  refine ⟨rfl, ?_, rfl, rfl, ?_, ?_, by decide⟩
  · simp [MatchController.update_turn_roll, MatchController.get_player,
      MatchController.emitIfStarted, hs,
      MatchPublisher.publish_player_turn_roll]
  · simp [MatchController.update_finish_roll, MatchController.get_player,
      MatchController.emitIfStarted, hs,
      MatchPublisher.publish_player_finish_roll]
  · simp [MatchController.add_breakout_roll, MatchController.get_player,
      MatchController.emitIfStarted, hs,
      MatchPublisher.publish_player_breakout_rolls]

/-- C5 witness at the started sample state and value 13: the stored and
published turn-roll value is the clamped 12, and the breakout-roll
mutation raises `AttributeError` publishing nothing. -/
theorem C5_roll_clamp_witness :
    sampleStarted.match_started = true
    ∧ ((MatchController.update_turn_roll sampleStarted 1 .POWER 13).1.match_state.player1.last_turn_roll
        = some ⟨.POWER, .vint 12⟩)
    ∧ ((MatchController.add_breakout_roll sampleStarted 1 13).2
        = ([], some (.attributeError "PLAYER_BREAKOUT_ROLLS"))) := by
  refine ⟨rfl, ?_, (C5_roll_clamp sampleStarted .POWER 13 rfl).2.2.2.2.2.1⟩
  have h := (C5_roll_clamp sampleStarted .POWER 13 rfl).1
  have h2 : max 1 (min 12 (13 : Int)) = 12 := by decide
  rw [h2] at h
  exact h

-- ==================== C6 ====================

/-- C6 counterexample: a message on `supershow/player/3/hand_count` —
instance 3, outside {1,2} — is not rejected: the registered hand-count
handler IS invoked (with player id 3), and the replica's
`update_player_hand_count` for id 3 mutates player 2's state. -/
theorem C6_counterexample :
    ((ProductionSubscriber.on_message handCb
        "supershow/player/3/hand_count" (.vint 5)).1
      = [⟨"player_hand_count", [.vint 3, .vint 5]⟩])
    ∧ ((ProductionStateManager.update_player_hand_count
          ProductionStateManager.initialReplica 3 5).1.player2.hand_count
        = 5) := ⟨rfl, rfl⟩

/-- C6 (amended): the router performs no instance validation — for every
integer player id, a message on the rendered hand-count topic for that id
is dispatched to the `player_hand_count` callback with that id — and the
replica's `_get_player` maps every id other than 1 to player 2, so such
updates mutate player 2's state. -/
theorem C6_no_instance_validation (pid : Int) (payload : Val)
    (cbs : Callbacks) :
    (ProductionSubscriber.on_message cbs
        (Topics.player_topic Topics.PLAYER_HAND_COUNT pid) payload
      = ProductionSubscriber.invoke cbs "player_hand_count"
          [.vint pid, payload])
    ∧ (∀ (ms : MatchState) (c : Int), pid ≠ 1 →
        (ProductionStateManager.update_player_hand_count ms pid c).1
          = { ms with player2 := { ms.player2 with hand_count := c } }) := by
  constructor
  · rw [player_topic_hand_count pid]
    rw [on_message_player cbs payload pid "hand_count".data (by decide)]
    rw [if_neg (by decide), if_pos (by decide)]
  · intro ms c hpid
    simp [ProductionStateManager.update_player_hand_count,
      ProductionStateManager.get_player, ProductionStateManager.set_player,
      hpid]

/-- C6 witness at instance 3: routing and the player-2 mutation, concrete. -/
theorem C6_witness :
    ((3 : Int) ≠ 1)
    ∧ (ProductionSubscriber.on_message handCb
        (Topics.player_topic Topics.PLAYER_HAND_COUNT 3) (.vint 5)
      = ProductionSubscriber.invoke handCb "player_hand_count"
          [.vint 3, .vint 5])
    ∧ ((ProductionStateManager.update_player_hand_count
          ProductionStateManager.initialReplica 3 5).1
        = { ProductionStateManager.initialReplica with
            player2 := { ProductionStateManager.initialReplica.player2 with
              hand_count := 5 } }) :=
  ⟨by decide, (C6_no_instance_validation 3 (.vint 5) handCb).1,
   (C6_no_instance_validation 3 (.vint 5) handCb).2
     ProductionStateManager.initialReplica 5 (by decide)⟩

-- ==================== C7 ====================

/-- The player-topic field names `_on_message` dispatches on. -/
def recognizedPlayerFields : List String :=
  ["competitor", "hand_count", "deck_count", "turn_roll", "turns_passed",
   "finish_roll", "breakout_rolls", "discard", "in_play"]

/-- C7 (confirmed): a message on a recognized domain with an unrecognized
field is dropped silently — no handler runs, no exception is recorded —
and the router processes every message of a sequence independently: each
inbound message yields exactly one `_on_message` outcome (a handler's
exception is returned as the caught-and-logged component, never
propagated), and the tail of the sequence is processed unchanged. -/
theorem C7_router_isolation (cbs : Callbacks) (payload : Val) (pid : Int)
    (fld : List Char) (hs : ∀ c ∈ fld, c ≠ '/')
    (hf : String.mk fld ∉ recognizedPlayerFields) :
    (ProductionSubscriber.on_message cbs
        (String.mk ("supershow/player/".data ++ (intChars pid ++ '/' :: fld)))
        payload = ([], none))
    ∧ (∀ msgs : List (String × Val),
        (ProductionSubscriber.processMessages cbs msgs).length = msgs.length)
    ∧ (∀ (t : String) (p : Val) (rest : List (String × Val)),
        ProductionSubscriber.processMessages cbs ((t, p) :: rest)
          = ProductionSubscriber.on_message cbs t p
            :: ProductionSubscriber.processMessages cbs rest) := by
  refine ⟨?_, ?_, fun t p rest => rfl⟩
  · rw [on_message_player cbs payload pid fld hs]
    simp only [recognizedPlayerFields, List.mem_cons, List.not_mem_nil,
      or_false, not_or] at hf
    obtain ⟨h1, h2, h3, h4, h5, h6, h7, h8, h9⟩ := hf
    rw [if_neg h1, if_neg h2, if_neg h3, if_neg h4, if_neg h5, if_neg h6,
      if_neg h7, if_neg h8, if_neg h9]
  · intro msgs
    induction msgs with
    | nil => rfl
    | cons m rest ih =>
      simp [ProductionSubscriber.processMessages, ih]

/-- C7 witness: the unrecognized field `bogus` under the player domain is
dropped, and a two-message sequence containing it still yields two
outcomes. -/
theorem C7_witness :
    (∀ c ∈ "bogus".data, c ≠ '/')
    ∧ (String.mk "bogus".data ∉ recognizedPlayerFields)
    ∧ (ProductionSubscriber.on_message handCb
        (String.mk ("supershow/player/".data
          ++ (intChars 1 ++ '/' :: "bogus".data))) (.vint 0) = ([], none))
    ∧ ((ProductionSubscriber.processMessages handCb
        [("supershow/match/title", .vstr "x"),
         ("supershow/player/1/bogus", .vint 0)]).length = 2) :=
  ⟨by decide, by decide,
   (C7_router_isolation handCb (.vint 0) 1 "bogus".data (by decide)
     (by decide)).1,
   (C7_router_isolation handCb (.vint 0) 1 "bogus".data (by decide)
     (by decide)).2.1
     [("supershow/match/title", .vstr "x"),
      ("supershow/player/1/bogus", .vint 0)]⟩

-- ==================== C8 ====================

/-- C8 counterexample: a turn-roll payload with the unknown roll type
`"Bogus"` is neither dropped nor surfaced — the replica silently stores
`RollType.POWER` with the payload's value and still emits the normal
`player_turn_roll` UI notification. -/
theorem C8_counterexample :
    ((ProductionStateManager.update_player_turn_roll
        ProductionStateManager.initialReplica 1
        (.vdict [("roll_type", .vstr "Bogus"), ("value", .vint 7)])).1.player1.last_turn_roll
      = some ⟨RollType.POWER, .vint 7⟩)
    ∧ ((ProductionStateManager.update_player_turn_roll
        ProductionStateManager.initialReplica 1
        (.vdict [("roll_type", .vstr "Bogus"), ("value", .vint 7)])).2
      = ["player_turn_roll"]) := ⟨rfl, rfl⟩

/-- C8 (amended): whenever the payload's roll-type string is not a
`RollType` member value (the enum constructor raises `ValueError`), the
replica substitutes the default `RollType.POWER`, applies the update with
it, and notifies the UI exactly as for a valid roll — the decode failure
is logged but not surfaced as a dropped update. -/
theorem C8_default_substitution (ms : MatchState) (pid : Int) (s : String)
    (value : Val) (h : RollType.fromValue s = none) :
    ProductionStateManager.update_player_turn_roll ms pid
        (.vdict [("roll_type", .vstr s), ("value", value)])
      = (ProductionStateManager.set_player ms pid
          { ProductionStateManager.get_player ms pid with
            last_turn_roll := some ⟨RollType.POWER, value⟩ },
         ["player_turn_roll"]) := by
  simp only [ProductionStateManager.update_player_turn_roll]
  rw [show Val.dictGet (.vdict [("roll_type", .vstr s), ("value", value)])
      "roll_type" (.vstr "") = .vstr s from rfl]
  rw [show Val.dictGet (.vdict [("roll_type", .vstr s), ("value", value)])
      "value" (.vint 1) = value from rfl]
  dsimp only
  rw [h]

/-- C8 witness at the unknown roll type `"Bogus"` and player 2. -/
theorem C8_witness :
    RollType.fromValue "Bogus" = none
    ∧ ProductionStateManager.update_player_turn_roll
        ProductionStateManager.initialReplica 2
        (.vdict [("roll_type", .vstr "Bogus"), ("value", .vint 3)])
      = (ProductionStateManager.set_player
          ProductionStateManager.initialReplica 2
          { ProductionStateManager.get_player
              ProductionStateManager.initialReplica 2 with
            last_turn_roll := some ⟨RollType.POWER, .vint 3⟩ },
         ["player_turn_roll"]) :=
  ⟨by decide, C8_default_substitution ProductionStateManager.initialReplica
    2 "Bogus" (.vint 3) (by decide)⟩

-- ==================== C9 ====================

/-- C9 counterexample: with the match started, a single hand-count
increment issues two publishes (hand count and deck count), not "exactly
one". -/
theorem C9_counterexample :
    (MatchController.increment_hand_count sampleStarted 1).2.1.length
      = 2 := rfl

/-- C9 (amended): before the match is started every domain mutation is
applied locally and publishes nothing; after start, the match-level
mutations and the turn-roll and turns-passed mutations publish exactly
one record, but the hand-count mutations publish two (hand count and deck
count), and the finish-roll and breakout-roll mutations publish zero,
raising `AttributeError` on their missing topic constants. -/
theorem C9_prestart_frame (s : MatchController.CtrlState) (pid : Int)
    (title stip : String) (rt : RollType) (v : Int)
    (hpid : pid = 1 ∨ pid = 2) :
    (s.match_started = false →
      ((MatchController.update_title s title).2 = ([], none)
       ∧ (MatchController.update_stipulations s stip).2 = ([], none)
       ∧ (MatchController.update_crowd_meter s v).2 = ([], none)
       ∧ (MatchController.update_turn_roll s pid rt v).2 = ([], none)
       ∧ (MatchController.increment_hand_count s pid).2 = ([], none)
       ∧ (MatchController.decrement_hand_count s pid).2 = ([], none)
       ∧ (MatchController.update_finish_roll s pid (some v)).2 = ([], none)
       ∧ (MatchController.add_breakout_roll s pid v).2 = ([], none)
       ∧ (MatchController.increment_turns_passed s pid).2 = ([], none)))
    ∧ ((MatchController.update_title s title).1.match_state.title = title
       ∧ (MatchController.update_crowd_meter s v).1.match_state.crowd_meter
           = max 0 (min 10 v))
    ∧ (s.match_started = true →
      ((MatchController.update_title s title).2.1.length = 1
       ∧ (MatchController.update_stipulations s stip).2.1.length = 1
       ∧ (MatchController.update_crowd_meter s v).2.1.length = 1
       ∧ (MatchController.update_turn_roll s pid rt v).2.1.length = 1
       ∧ (MatchController.increment_turns_passed s pid).2.1.length = 1
       ∧ (MatchController.increment_hand_count s pid).2.1.length = 2
       ∧ (MatchController.decrement_hand_count s pid).2.1.length = 2
       ∧ (MatchController.update_finish_roll s pid (some v)).2
           = ([], some (.attributeError "PLAYER_FINISH_ROLL"))
       ∧ (MatchController.add_breakout_roll s pid v).2
           = ([], some (.attributeError "PLAYER_BREAKOUT_ROLLS")))) := by
  rcases hpid with rfl | rfl <;>
    refine ⟨fun hs => ?_, ⟨rfl, rfl⟩, fun hs => ?_⟩ <;>
    refine ⟨?_, ?_, ?_, ?_, ?_, ?_, ?_, ?_, ?_⟩ <;>
    simp [MatchController.update_title, MatchController.update_stipulations,
      MatchController.update_crowd_meter, MatchController.update_turn_roll,
      MatchController.increment_hand_count,
      MatchController.decrement_hand_count,
      MatchController.update_finish_roll, MatchController.add_breakout_roll,
      MatchController.increment_turns_passed, MatchController.get_player,
      MatchController.set_player, MatchController.emitIfStarted,
      MatchController.emit2IfStarted, hs,
      MatchPublisher.publish_match_title,
      MatchPublisher.publish_match_stipulations,
      MatchPublisher.publish_crowd_meter,
      MatchPublisher.publish_player_turn_roll,
      MatchPublisher.publish_player_hand_count,
      MatchPublisher.publish_player_deck_count,
      MatchPublisher.publish_player_finish_roll,
      MatchPublisher.publish_player_breakout_rolls,
      MatchPublisher.publish_player_turns_passed]

/-- C9 witness at the started sample state and player 1. -/
theorem C9_witness :
    ((1 : Int) = 1 ∨ (1 : Int) = 2)
    ∧ sampleStarted.match_started = true
    ∧ (MatchController.update_title sampleStarted "T").2.1.length = 1
    ∧ (MatchController.increment_hand_count sampleStarted 1).2.1.length = 2
    ∧ (MatchController.add_breakout_roll sampleStarted 1 7).2
        = ([], some (.attributeError "PLAYER_BREAKOUT_ROLLS")) := by
  have h := (C9_prestart_frame sampleStarted 1 "T" "S" .POWER 7
    (by decide)).2.2 rfl
  exact ⟨by decide, rfl, h.1, h.2.2.2.2.2.1, h.2.2.2.2.2.2.2.2⟩

-- ==================== C10 ====================

/-- C10 (confirmed): a non-string payload is delivered to the inbound
callback exactly as published (JSON encode then decode is the identity on
it); a string payload is published verbatim and delivered unchanged when
it does not itself parse as JSON, and otherwise the parsed value is
delivered instead. -/
theorem C10_payload_roundtrip :
    (∀ p : Val, p.isStr = false →
       MQTTClient.on_message_payload (MQTTClient.encodePayload p) = p)
    ∧ (∀ s : String, loads s = none →
        MQTTClient.encodePayload (.vstr s) = s
        ∧ MQTTClient.on_message_payload s = .vstr s)
    ∧ (∀ (s : String) (v : Val), loads s = some v →
        MQTTClient.on_message_payload (MQTTClient.encodePayload (.vstr s))
          = v) := by
  refine ⟨fun p hp => ?_, fun s hs => ⟨rfl, ?_⟩, fun s v hv => ?_⟩
  · have he : MQTTClient.encodePayload p = String.mk (dumps p) := by
      cases p <;> first | rfl | simp [Val.isStr] at hp
    rw [he]
    unfold MQTTClient.on_message_payload
    rw [loads_dumps p]
  · unfold MQTTClient.on_message_payload
    rw [hs]
  · show MQTTClient.on_message_payload s = v
    unfold MQTTClient.on_message_payload
    rw [hv]

/-- C10 witness: the integer payload 42 survives the wire round trip. -/
theorem C10_witness :
    (Val.isStr (.vint 42) = false)
    ∧ MQTTClient.on_message_payload (MQTTClient.encodePayload (.vint 42))
        = .vint 42 :=
  ⟨rfl, C10_payload_roundtrip.1 (.vint 42) rfl⟩
